import Mathlib

/-!
# strong_type: a verification development

A shallow embedding of `include/strong_type.h` and `include/strong_type_skills.h`
(namespace `roam`) together with the properties of the generated operators.

The library is generic over the underlying representation `ty_t`.  The language
primitives it relies on (built-in comparison and arithmetic, `<cmath>`,
`<limits>`) are modelled here for two families of representations:

* IEEE 754 binary floating point (`Fp fmt`), with round-to-nearest-even, signed
  zeros, infinities and NaN;
* fixed-width machine integers (`MInt w sg`).
-/

namespace roam

/-! ## IEEE 754 binary floating point -/

/-- Parameters of an IEEE 754 binary format: `prec` significand bits (hidden bit
included) and largest exponent `emax`. -/
structure Format where
  prec : Nat
  emax : Nat
deriving DecidableEq, Repr

/-- The format of `float`. -/
def binary32 : Format := ⟨24, 127⟩

/-- The format of `double`. -/
def binary64 : Format := ⟨53, 1023⟩

namespace Format

/-- The quantum (smallest positive subnormal) of the format is `2 ^ (-qexp)`. -/
def qexp (f : Format) : Nat := f.emax + f.prec - 2

/-- Largest finite magnitude, counted in quanta. -/
def maxMag (f : Format) : Nat := (2 ^ f.prec - 1) * 2 ^ (2 * f.emax - 1)

/-- The value one, counted in quanta. -/
def oneMag (f : Format) : Nat := 2 ^ f.qexp

/-- Machine epsilon `2 ^ (1 - prec)`, counted in quanta. -/
def epsMag (f : Format) : Nat := 2 ^ (f.emax - 1)

end Format

/-- Bit length with explicit fuel. -/
def bitlenAux : Nat → Nat → Nat
  | 0, _ => 0
  | fuel + 1, n => if n = 0 then 0 else bitlenAux fuel (n / 2) + 1

/-- Number of binary digits of `n` (`0` for `n = 0`). -/
def bitlen (n : Nat) : Nat := bitlenAux n n

/-- Nearest integer to the rational `num / den`, ties to even. -/
def rne (num den : Nat) : Nat :=
  let q := num / den
  let r := num % den
  if 2 * r < den then q
  else if den < 2 * r then q + 1
  else if q % 2 = 0 then q else q + 1

/-- Round the non-negative rational `num / den` (a magnitude counted in quanta) to
`p` significant bits, nearest with ties to even.  Below `2 ^ p` quanta the grid is
the quantum itself (subnormals and the first binade). -/
def rnd (p num den : Nat) : Nat :=
  let g := bitlen (num / den) - p
  rne num (den * 2 ^ g) * 2 ^ g

/-- Values of a binary floating-point type.  A finite value is held in
sign-magnitude form, the magnitude counted in quanta, so `fin true 0` is `-0.0`.
All NaNs are identified. -/
inductive Fp (fmt : Format) where
  | nan
  | inf (neg : Bool)
  | fin (neg : Bool) (mag : Nat)
deriving DecidableEq, Repr

namespace Fp

variable {fmt : Format}

/-- A finite magnitude is representable when it fits in `prec` significant bits
and does not exceed the largest finite value. -/
def representable (fmt : Format) (m : Nat) : Prop :=
  m % 2 ^ (bitlen m - fmt.prec) = 0 ∧ m ≤ fmt.maxMag

instance (fmt : Format) (m : Nat) : Decidable (representable fmt m) := by
  unfold representable; infer_instance

/-- Well-formed values of the format. -/
def valid : Fp fmt → Prop
  | nan => True
  | inf _ => True
  | fin _ m => representable fmt m

instance (x : Fp fmt) : Decidable (valid x) := by
  cases x <;> unfold valid <;> infer_instance

def isNaN : Fp fmt → Bool
  | nan => true
  | _ => false

def isFinite : Fp fmt → Bool
  | fin _ _ => true
  | _ => false

/-- The signed number of quanta of a finite value. -/
def toInt (neg : Bool) (mag : Nat) : Int := if neg then -(mag : Int) else (mag : Int)

/-- Deliver a rounded magnitude: overflow past the largest finite value gives an
infinity of the same sign. -/
def pack (fmt : Format) (neg : Bool) (m : Nat) : Fp fmt :=
  if m ≤ fmt.maxMag then fin neg m else inf neg

/-- `std::numeric_limits<T>::epsilon()`. -/
def epsilon (fmt : Format) : Fp fmt := fin false fmt.epsMag

/-- The value `1.0`. -/
def one (fmt : Format) : Fp fmt := fin false fmt.oneMag

/-- Unary minus. -/
def neg : Fp fmt → Fp fmt
  | nan => nan
  | inf s => inf (!s)
  | fin s m => fin (!s) m

/-- `std::fabs`. -/
def fabs : Fp fmt → Fp fmt
  | nan => nan
  | inf _ => inf false
  | fin _ m => fin false m

/-- Built-in `a < b`. -/
def lt : Fp fmt → Fp fmt → Bool
  | nan, _ => false
  | _, nan => false
  | inf s1, inf s2 => s1 && !s2
  | inf s, fin _ _ => s
  | fin _ _, inf s => !s
  | fin s1 m1, fin s2 m2 => decide (toInt s1 m1 < toInt s2 m2)

/-- Built-in `a <= b`. -/
def le : Fp fmt → Fp fmt → Bool
  | nan, _ => false
  | _, nan => false
  | inf s1, inf s2 => s1 || !s2
  | inf s, fin _ _ => s
  | fin _ _, inf s => !s
  | fin s1 m1, fin s2 m2 => decide (toInt s1 m1 ≤ toInt s2 m2)

/-- Built-in `a == b`. -/
def eq : Fp fmt → Fp fmt → Bool
  | nan, _ => false
  | _, nan => false
  | inf s1, inf s2 => s1 == s2
  | inf _, fin _ _ => false
  | fin _ _, inf _ => false
  | fin s1 m1, fin s2 m2 => decide (toInt s1 m1 = toInt s2 m2)

/-- `std::fmax`: a NaN argument is ignored in favour of the other one.  For two
zeros of opposite sign the first argument is returned. -/
def fmax : Fp fmt → Fp fmt → Fp fmt
  | nan, y => y
  | x, nan => x
  | x, y => if lt x y then y else x

/-- Built-in `a + b`. -/
def add : Fp fmt → Fp fmt → Fp fmt
  | nan, _ => nan
  | _, nan => nan
  | inf s1, inf s2 => if s1 = s2 then inf s1 else nan
  | inf s, fin _ _ => inf s
  | fin _ _, inf s => inf s
  | fin s1 m1, fin s2 m2 =>
    let i := toInt s1 m1 + toInt s2 m2
    if i = 0 then fin (s1 && s2) 0
    else pack fmt (decide (i < 0)) (rnd fmt.prec i.natAbs 1)

/-- Built-in `a - b`. -/
def sub : Fp fmt → Fp fmt → Fp fmt
  | nan, _ => nan
  | _, nan => nan
  | inf s1, inf s2 => if s1 = s2 then nan else inf s1
  | inf s, fin _ _ => inf s
  | fin _ _, inf s => inf (!s)
  | fin s1 m1, fin s2 m2 =>
    let i := toInt s1 m1 - toInt s2 m2
    if i = 0 then fin (s1 && !s2) 0
    else pack fmt (decide (i < 0)) (rnd fmt.prec i.natAbs 1)

/-- Built-in `a * b`. -/
def mul : Fp fmt → Fp fmt → Fp fmt
  | nan, _ => nan
  | _, nan => nan
  | inf s1, inf s2 => inf (xor s1 s2)
  | inf s1, fin s2 m => if m = 0 then nan else inf (xor s1 s2)
  | fin s1 m, inf s2 => if m = 0 then nan else inf (xor s1 s2)
  | fin s1 m1, fin s2 m2 => pack fmt (xor s1 s2) (rnd fmt.prec (m1 * m2) (2 ^ fmt.qexp))

/-- Built-in `a / b`. -/
def div : Fp fmt → Fp fmt → Fp fmt
  | nan, _ => nan
  | _, nan => nan
  | inf _, inf _ => nan
  | inf s1, fin s2 _ => inf (xor s1 s2)
  | fin s1 _, inf s2 => fin (xor s1 s2) 0
  | fin s1 m1, fin s2 m2 =>
    if m2 = 0 then (if m1 = 0 then nan else inf (xor s1 s2))
    else pack fmt (xor s1 s2) (rnd fmt.prec (m1 * 2 ^ fmt.qexp) m2)

/-- Conversion of an integer to the format (round to nearest even). -/
def ofInt (fmt : Format) (i : Int) : Fp fmt :=
  pack fmt (decide (i < 0)) (rnd fmt.prec (i.natAbs * 2 ^ fmt.qexp) 1)

/-- Conversion between two binary formats (round to nearest even). -/
def convert {src : Format} (dst : Format) : Fp src → Fp dst
  | nan => nan
  | inf s => inf s
  | fin s m => pack dst s (rnd dst.prec (m * 2 ^ dst.qexp) (2 ^ src.qexp))

end Fp

/-! ## Fixed-width machine integers -/

/-- Values of a built-in integer type of `w` bits, signed when `sg` holds. -/
structure MInt (w : Nat) (sg : Bool) where
  val : Int
deriving DecidableEq, Repr

namespace MInt

variable {w : Nat} {sg : Bool}

/-- Smallest value of the type. -/
def lo (w : Nat) (sg : Bool) : Int := if sg then -(2 ^ (w - 1) : Int) else 0

/-- Largest value of the type. -/
def hi (w : Nat) (sg : Bool) : Int := if sg then 2 ^ (w - 1) - 1 else 2 ^ w - 1

/-- Well-formed values of the type. -/
def valid (x : MInt w sg) : Prop := lo w sg ≤ x.val ∧ x.val ≤ hi w sg

instance (x : MInt w sg) : Decidable (valid x) := by
  unfold valid; infer_instance

/-- Deliver the mathematical result `r` of an arithmetic operation: unsigned
types reduce modulo `2 ^ w`; for signed types a result out of range is
undefined. -/
def deliver (w : Nat) (sg : Bool) (r : Int) : Option (MInt w sg) :=
  if sg then (if lo w sg ≤ r ∧ r ≤ hi w sg then some ⟨r⟩ else none)
  else some ⟨r % 2 ^ w⟩

/-- Built-in `a == b`. -/
def eq (a b : MInt w sg) : Bool := decide (a.val = b.val)

/-- Built-in `a < b`. -/
def lt (a b : MInt w sg) : Bool := decide (a.val < b.val)

/-- Built-in `a + b`. -/
def add (a b : MInt w sg) : Option (MInt w sg) := deliver w sg (a.val + b.val)

/-- Built-in `a - b`. -/
def sub (a b : MInt w sg) : Option (MInt w sg) := deliver w sg (a.val - b.val)

/-- Built-in `a * b`. -/
def mul (a b : MInt w sg) : Option (MInt w sg) := deliver w sg (a.val * b.val)

/-- Built-in `a / b`: truncating, undefined for a zero divisor. -/
def div (a b : MInt w sg) : Option (MInt w sg) :=
  if b.val = 0 then none else deliver w sg (Int.tdiv a.val b.val)

/-- Built-in unary `-a`. -/
def neg (a : MInt w sg) : Option (MInt w sg) := deliver w sg (-a.val)

end MInt

/-- `int32_t`. -/
abbrev int32_t := MInt 32 true

/-- `uint32_t`. -/
abbrev uint32_t := MInt 32 false

/-- `int64_t`. -/
abbrev int64_t := MInt 64 true

/-! ## What the library asks of a representation -/

/-- The `<cmath>` / `<limits>` facilities and built-in operators used by the
floating-point branch of `detail::st_test_equality`. -/
structure FloatingPoint (T : Type) where
  epsilon : T
  fabs : T → T
  fmax : T → T → T
  sub : T → T → T
  mul : T → T → T
  le : T → T → Bool

/-- Comparison primitives of a representation type `T`.  `floating` is `some`
exactly when `std::is_floating_point_v<T>` holds, and then carries the
operations that the floating-point branch may use. -/
class Representation (T : Type) where
  floating : Option (FloatingPoint T)
  eq : T → T → Bool
  lt : T → T → Bool

/-- `std::is_floating_point_v<T>`. -/
def is_floating_point_v (T : Type) [Representation T] : Bool :=
  (Representation.floating (T := T)).isSome

instance instRepresentationFp (fmt : Format) : Representation (Fp fmt) where
  floating := some
    { epsilon := Fp.epsilon fmt, fabs := Fp.fabs, fmax := Fp.fmax,
      sub := Fp.sub, mul := Fp.mul, le := Fp.le }
  eq := Fp.eq
  lt := Fp.lt

instance instRepresentationMInt (w : Nat) (sg : Bool) : Representation (MInt w sg) where
  floating := none
  eq := MInt.eq
  lt := MInt.lt

/-! ## strong_type.h -/

/-- The class template `strong_type< crtp_type, ty_t, skills... >`: one stored
value `v_` of the representation.  The derived type inherits the constructors,
so a value of the derived type `T` is a value of this structure. -/
structure strong_type (ty_t : Type) where
  v_ : ty_t
deriving DecidableEq, Repr

namespace strong_type

variable {ty_t : Type}

/-- `explicit constexpr strong_type( ty_t const& v )` and the move form. -/
def construct (v : ty_t) : strong_type ty_t := ⟨v⟩

/-- `get()`. -/
def get (x : strong_type ty_t) : ty_t := x.v_

end strong_type

/-! ## strong_type_skills.h -/

namespace st_skill

variable {ty_t : Type}

/-- `underlying()`: the skill seen as the strong type it is a base of. -/
def underlying (x : strong_type ty_t) : strong_type ty_t := x

/-- `value()`. -/
def value (x : strong_type ty_t) : ty_t := (underlying x).get

end st_skill

namespace detail

/-- `detail::st_test_equality`. -/
def st_test_equality {T : Type} [Representation T] (a b : T) : Bool :=
  match Representation.floating (T := T) with
  | some F =>
    let c_base_eps := F.epsilon
    let scaled_eps := F.mul c_base_eps (F.fmax (F.fabs a) (F.fabs b))
    F.le (F.fabs (F.sub a b)) scaled_eps
  | none => Representation.eq a b

end detail

namespace st_eq

variable {ty_t : Type} [Representation ty_t]

/-- `operator==` of `st_eq`. -/
def op_eq (lhs rhs : strong_type ty_t) : Bool :=
  detail.st_test_equality (st_skill.value lhs) (st_skill.value rhs)

/-- `operator!=` of `st_eq`. -/
def op_ne (lhs rhs : strong_type ty_t) : Bool :=
  !(op_eq lhs rhs)

end st_eq

namespace st_cmp

variable {ty_t : Type} [Representation ty_t]

/-- `operator<` of `st_cmp`. -/
def op_lt (lhs rhs : strong_type ty_t) : Bool :=
  Representation.lt (st_skill.value lhs) (st_skill.value rhs) && !(st_eq.op_eq lhs rhs)

/-- `operator>=` of `st_cmp`. -/
def op_ge (lhs rhs : strong_type ty_t) : Bool :=
  !(op_lt lhs rhs)

/-- `operator>` of `st_cmp`. -/
def op_gt (lhs rhs : strong_type ty_t) : Bool :=
  op_lt rhs lhs

/-- `operator<=` of `st_cmp`. -/
def op_le (lhs rhs : strong_type ty_t) : Bool :=
  !(op_lt rhs lhs)

end st_cmp

/-! ### Arithmetic -/

/-- `float`. -/
abbrev float := Fp binary32

/-- `double`. -/
abbrev double := Fp binary64

/-- Built-in arithmetic of a representation type.  `none` stands for an
operation whose behaviour the language leaves undefined (integer division by
zero, signed overflow); the library does not guard against it. -/
class Arithmetic (T : Type) where
  add : T → T → Option T
  sub : T → T → Option T
  mul : T → T → Option T
  div : T → T → Option T
  neg : T → Option T

instance instArithmeticFp (fmt : Format) : Arithmetic (Fp fmt) where
  add a b := some (Fp.add a b)
  sub a b := some (Fp.sub a b)
  mul a b := some (Fp.mul a b)
  div a b := some (Fp.div a b)
  neg a := some (Fp.neg a)

instance instArithmeticMInt (w : Nat) (sg : Bool) : Arithmetic (MInt w sg) where
  add := MInt.add
  sub := MInt.sub
  mul := MInt.mul
  div := MInt.div
  neg := MInt.neg

/-- A scalar operand type `S` for a representation `T`: in `x op s` and
`s op x` the usual arithmetic conversions bring `s` to `T`.  An instance exists
for the pairs whose common type is `T`, which are the pairs for which
`T{ x op s }` is not a narrowing initialisation. -/
class ScalarOperand (S T : Type) where
  conv : S → T

instance instScalarFpSelf (fmt : Format) : ScalarOperand (Fp fmt) (Fp fmt) where
  conv s := s

instance instScalarFloatDouble : ScalarOperand float double where
  conv s := Fp.convert binary64 s

instance instScalarMIntFp (w : Nat) (sg : Bool) (fmt : Format) :
    ScalarOperand (MInt w sg) (Fp fmt) where
  conv s := Fp.ofInt fmt s.val

instance instScalarMIntSelf (w : Nat) (sg : Bool) : ScalarOperand (MInt w sg) (MInt w sg) where
  conv s := s

instance instScalarInt32UInt32 : ScalarOperand int32_t uint32_t where
  conv s := ⟨s.val % 2 ^ 32⟩

instance instScalarInt32Int64 : ScalarOperand int32_t int64_t where
  conv s := ⟨s.val⟩

instance instScalarUInt32Int64 : ScalarOperand uint32_t int64_t where
  conv s := ⟨s.val⟩

/-- Objects of a strong type are named by locations. -/
abbrev Loc := Nat

/-- The objects of a strong type alive in a program state. -/
abbrev Store (ty_t : Type) := Loc → strong_type ty_t

/-- Assignment to the object at `l`. -/
def Store.assign {ty_t : Type} (σ : Store ty_t) (l : Loc) (v : strong_type ty_t) : Store ty_t :=
  fun k => if k = l then v else σ k

section macros

variable {ty_t : Type}

/-- `ROAM_OP_VAL( op, op_name )`: `return T{ lhs.value() op rhs.value() };` -/
def ROAM_OP_VAL (op : ty_t → ty_t → Option ty_t) (lhs rhs : strong_type ty_t) :
    Option (strong_type ty_t) :=
  (op (st_skill.value lhs) (st_skill.value rhs)).map strong_type.construct

/-- `ROAM_OP_VAL_RHS( op, op_name, rhs_type )`, first function:
`return T{ lhs.value() op rhs };` -/
def ROAM_OP_VAL_RHS {rhs_type : Type} [ScalarOperand rhs_type ty_t]
    (op : ty_t → ty_t → Option ty_t) (lhs : strong_type ty_t) (rhs : rhs_type) :
    Option (strong_type ty_t) :=
  (op (st_skill.value lhs) (ScalarOperand.conv rhs)).map strong_type.construct

/-- `ROAM_OP_VAL_RHS( op, op_name, rhs_type )`, second function, with the
scalar on the left: `return T{ lhs op rhs.value() };` -/
def ROAM_OP_VAL_RHS_swapped {rhs_type : Type} [ScalarOperand rhs_type ty_t]
    (op : ty_t → ty_t → Option ty_t) (lhs : rhs_type) (rhs : strong_type ty_t) :
    Option (strong_type ty_t) :=
  (op (ScalarOperand.conv lhs) (st_skill.value rhs)).map strong_type.construct

/-- `ROAM_OP_VAL_UNARY( op, op_name )`: `return T{ op lhs.value() };` -/
def ROAM_OP_VAL_UNARY (op : ty_t → Option ty_t) (lhs : strong_type ty_t) :
    Option (strong_type ty_t) :=
  (op (st_skill.value lhs)).map strong_type.construct

/-- `ROAM_OP_REF( op, op_name )`:
`auto tmp = lhs.value(); tmp op rhs.value(); return lhs.underlying() = T{ tmp };`
Both operands are references, so they are given as locations; the result is the
new state and the location the returned reference denotes.  The built-in
compound assignment `tmp op= y` is `tmp = tmp op y`. -/
def ROAM_OP_REF (op : ty_t → ty_t → Option ty_t) (σ : Store ty_t) (lhs rhs : Loc) :
    Option (Store ty_t × Loc) :=
  let tmp := st_skill.value (σ lhs)
  (op tmp (st_skill.value (σ rhs))).map fun tmp =>
    (σ.assign lhs (strong_type.construct tmp), lhs)

/-- `ROAM_OP_REF_RHS( op, op_name, rhs_type )`:
`auto tmp = lhs.value(); tmp op rhs; return lhs.underlying() = T{ tmp };` -/
def ROAM_OP_REF_RHS {rhs_type : Type} [ScalarOperand rhs_type ty_t]
    (op : ty_t → ty_t → Option ty_t) (σ : Store ty_t) (lhs : Loc) (rhs : rhs_type) :
    Option (Store ty_t × Loc) :=
  let tmp := st_skill.value (σ lhs)
  (op tmp (ScalarOperand.conv rhs)).map fun tmp =>
    (σ.assign lhs (strong_type.construct tmp), lhs)

end macros

namespace st_add

variable {ty_t : Type} [Arithmetic ty_t]

/-- `ROAM_OP_VAL( +, st_add )`. -/
def op_add : strong_type ty_t → strong_type ty_t → Option (strong_type ty_t) :=
  ROAM_OP_VAL Arithmetic.add

/-- `ROAM_OP_REF( +=, st_add )`. -/
def op_add_assign : Store ty_t → Loc → Loc → Option (Store ty_t × Loc) :=
  ROAM_OP_REF Arithmetic.add

end st_add

namespace st_sub

variable {ty_t : Type} [Arithmetic ty_t]

/-- `ROAM_OP_VAL( -, st_sub )`. -/
def op_sub : strong_type ty_t → strong_type ty_t → Option (strong_type ty_t) :=
  ROAM_OP_VAL Arithmetic.sub

/-- `ROAM_OP_VAL_UNARY( -, st_sub )`. -/
def op_neg : strong_type ty_t → Option (strong_type ty_t) :=
  ROAM_OP_VAL_UNARY Arithmetic.neg

/-- `ROAM_OP_REF( -=, st_sub )`. -/
def op_sub_assign : Store ty_t → Loc → Loc → Option (Store ty_t × Loc) :=
  ROAM_OP_REF Arithmetic.sub

end st_sub

namespace st_mul_t

variable {ty_t : Type} [Arithmetic ty_t]

/-- `ROAM_OP_VAL( *, st_mul_t )`. -/
def op_mul : strong_type ty_t → strong_type ty_t → Option (strong_type ty_t) :=
  ROAM_OP_VAL Arithmetic.mul

/-- `ROAM_OP_REF( *=, st_mul_t )`. -/
def op_mul_assign : Store ty_t → Loc → Loc → Option (Store ty_t × Loc) :=
  ROAM_OP_REF Arithmetic.mul

end st_mul_t

namespace st_div_t

variable {ty_t : Type} [Arithmetic ty_t]

/-- `ROAM_OP_VAL( /, st_div_t )`. -/
def op_div : strong_type ty_t → strong_type ty_t → Option (strong_type ty_t) :=
  ROAM_OP_VAL Arithmetic.div

/-- `ROAM_OP_REF( /=, st_div_t )`. -/
def op_div_assign : Store ty_t → Loc → Loc → Option (Store ty_t × Loc) :=
  ROAM_OP_REF Arithmetic.div

end st_div_t

/-- The `rhs_type`s with which `st_mul_f` and `st_div_f` invoke the scalar
macros: `float` and `double`. -/
class rhs_type_f (S : Type) where

instance instRhsFloat : rhs_type_f float := {}

instance instRhsDouble : rhs_type_f double := {}

/-- The `rhs_type`s with which `st_mul_i` and `st_div_i` invoke the scalar
macros: `int32_t`, `uint32_t` and `int64_t`. -/
class rhs_type_i (S : Type) where

instance instRhsInt32 : rhs_type_i int32_t := {}

instance instRhsUInt32 : rhs_type_i uint32_t := {}

instance instRhsInt64 : rhs_type_i int64_t := {}

namespace st_mul_f

variable {ty_t rhs_type : Type} [Arithmetic ty_t] [rhs_type_f rhs_type]
  [ScalarOperand rhs_type ty_t]

/-- `ROAM_OP_VAL_RHS( *, st_mul_f, rhs_type )`, strong type on the left. -/
def op_mul : strong_type ty_t → rhs_type → Option (strong_type ty_t) :=
  ROAM_OP_VAL_RHS Arithmetic.mul

/-- `ROAM_OP_VAL_RHS( *, st_mul_f, rhs_type )`, scalar on the left. -/
def op_mul_swapped : rhs_type → strong_type ty_t → Option (strong_type ty_t) :=
  ROAM_OP_VAL_RHS_swapped Arithmetic.mul

/-- `ROAM_OP_REF_RHS( *=, st_mul_f, rhs_type )`. -/
def op_mul_assign : Store ty_t → Loc → rhs_type → Option (Store ty_t × Loc) :=
  ROAM_OP_REF_RHS Arithmetic.mul

end st_mul_f

namespace st_mul_i

variable {ty_t rhs_type : Type} [Arithmetic ty_t] [rhs_type_i rhs_type]
  [ScalarOperand rhs_type ty_t]

/-- `ROAM_OP_VAL_RHS( *, st_mul_i, rhs_type )`, strong type on the left. -/
def op_mul : strong_type ty_t → rhs_type → Option (strong_type ty_t) :=
  ROAM_OP_VAL_RHS Arithmetic.mul

/-- `ROAM_OP_VAL_RHS( *, st_mul_i, rhs_type )`, scalar on the left. -/
def op_mul_swapped : rhs_type → strong_type ty_t → Option (strong_type ty_t) :=
  ROAM_OP_VAL_RHS_swapped Arithmetic.mul

/-- `ROAM_OP_REF_RHS( *=, st_mul_i, rhs_type )`. -/
def op_mul_assign : Store ty_t → Loc → rhs_type → Option (Store ty_t × Loc) :=
  ROAM_OP_REF_RHS Arithmetic.mul

end st_mul_i

namespace st_div_f

variable {ty_t rhs_type : Type} [Arithmetic ty_t] [rhs_type_f rhs_type]
  [ScalarOperand rhs_type ty_t]

/-- `ROAM_OP_VAL_RHS( /, st_div_f, rhs_type )`, strong type on the left. -/
def op_div : strong_type ty_t → rhs_type → Option (strong_type ty_t) :=
  ROAM_OP_VAL_RHS Arithmetic.div

/-- `ROAM_OP_VAL_RHS( /, st_div_f, rhs_type )`, scalar on the left. -/
def op_div_swapped : rhs_type → strong_type ty_t → Option (strong_type ty_t) :=
  ROAM_OP_VAL_RHS_swapped Arithmetic.div

/-- `ROAM_OP_REF_RHS( /=, st_div_f, rhs_type )`. -/
def op_div_assign : Store ty_t → Loc → rhs_type → Option (Store ty_t × Loc) :=
  ROAM_OP_REF_RHS Arithmetic.div

end st_div_f

namespace st_div_i

variable {ty_t rhs_type : Type} [Arithmetic ty_t] [rhs_type_i rhs_type]
  [ScalarOperand rhs_type ty_t]

/-- `ROAM_OP_VAL_RHS( /, st_div_i, rhs_type )`, strong type on the left. -/
def op_div : strong_type ty_t → rhs_type → Option (strong_type ty_t) :=
  ROAM_OP_VAL_RHS Arithmetic.div

/-- `ROAM_OP_VAL_RHS( /, st_div_i, rhs_type )`, scalar on the left. -/
def op_div_swapped : rhs_type → strong_type ty_t → Option (strong_type ty_t) :=
  ROAM_OP_VAL_RHS_swapped Arithmetic.div

/-- `ROAM_OP_REF_RHS( /=, st_div_i, rhs_type )`. -/
def op_div_assign : Store ty_t → Loc → rhs_type → Option (Store ty_t × Loc) :=
  ROAM_OP_REF_RHS Arithmetic.div

end st_div_i

/-! ### The operator functions each skill declares -/

/-- Operator symbols of the arithmetic skills. -/
inductive op_symbol where
  | plus | minus | star | slash
  | plus_assign | minus_assign | star_assign | slash_assign
deriving DecidableEq, Repr

/-- Names of the scalar `rhs_type`s. -/
inductive scalar_name where
  | float | double | int32_t | uint32_t | int64_t
deriving DecidableEq, Repr

/-- Type of one parameter of an operator function: the skill `op_name< T >`
(the strong type) or a scalar. -/
inductive operand where
  | strong
  | scalar (rhs_type : scalar_name)
deriving DecidableEq, Repr

/-- Declaration of one operator function: its symbol and parameter types, in
order. -/
structure op_decl where
  symbol : op_symbol
  params : List operand
deriving DecidableEq, Repr

/-- Functions defined by `ROAM_OP_VAL( op, op_name )`. -/
def ROAM_OP_VAL.decls (op : op_symbol) : List op_decl :=
  [⟨op, [.strong, .strong]⟩]

/-- Functions defined by `ROAM_OP_VAL_RHS( op, op_name, rhs_type )`. -/
def ROAM_OP_VAL_RHS.decls (op : op_symbol) (rhs_type : scalar_name) : List op_decl :=
  [⟨op, [.strong, .scalar rhs_type]⟩, ⟨op, [.scalar rhs_type, .strong]⟩]

/-- Functions defined by `ROAM_OP_VAL_UNARY( op, op_name )`. -/
def ROAM_OP_VAL_UNARY.decls (op : op_symbol) : List op_decl :=
  [⟨op, [.strong]⟩]

/-- Functions defined by `ROAM_OP_REF( op, op_name )`. -/
def ROAM_OP_REF.decls (op : op_symbol) : List op_decl :=
  [⟨op, [.strong, .strong]⟩]

/-- Functions defined by `ROAM_OP_REF_RHS( op, op_name, rhs_type )`. -/
def ROAM_OP_REF_RHS.decls (op : op_symbol) (rhs_type : scalar_name) : List op_decl :=
  [⟨op, [.strong, .scalar rhs_type]⟩]

def st_add.decls : List op_decl :=
  ROAM_OP_VAL.decls .plus ++ ROAM_OP_REF.decls .plus_assign

def st_sub.decls : List op_decl :=
  ROAM_OP_VAL.decls .minus ++ ROAM_OP_VAL_UNARY.decls .minus ++ ROAM_OP_REF.decls .minus_assign

def st_mul_t.decls : List op_decl :=
  ROAM_OP_VAL.decls .star ++ ROAM_OP_REF.decls .star_assign

def st_mul_f.decls : List op_decl :=
  ROAM_OP_VAL_RHS.decls .star .float ++ ROAM_OP_REF_RHS.decls .star_assign .float ++
  ROAM_OP_VAL_RHS.decls .star .double ++ ROAM_OP_REF_RHS.decls .star_assign .double

def st_mul_i.decls : List op_decl :=
  ROAM_OP_VAL_RHS.decls .star .int32_t ++ ROAM_OP_REF_RHS.decls .star_assign .int32_t ++
  ROAM_OP_VAL_RHS.decls .star .uint32_t ++ ROAM_OP_REF_RHS.decls .star_assign .uint32_t ++
  ROAM_OP_VAL_RHS.decls .star .int64_t ++ ROAM_OP_REF_RHS.decls .star_assign .int64_t

def st_div_t.decls : List op_decl :=
  ROAM_OP_VAL.decls .slash ++ ROAM_OP_REF.decls .slash_assign

def st_div_f.decls : List op_decl :=
  ROAM_OP_VAL_RHS.decls .slash .float ++ ROAM_OP_REF_RHS.decls .slash_assign .float ++
  ROAM_OP_VAL_RHS.decls .slash .double ++ ROAM_OP_REF_RHS.decls .slash_assign .double

def st_div_i.decls : List op_decl :=
  ROAM_OP_VAL_RHS.decls .slash .int32_t ++ ROAM_OP_REF_RHS.decls .slash_assign .int32_t ++
  ROAM_OP_VAL_RHS.decls .slash .uint32_t ++ ROAM_OP_REF_RHS.decls .slash_assign .uint32_t ++
  ROAM_OP_VAL_RHS.decls .slash .int64_t ++ ROAM_OP_REF_RHS.decls .slash_assign .int64_t

/-- The composite `st_mul` inherits from `st_mul_t`, `st_mul_f`, `st_mul_i`. -/
def st_mul.decls : List op_decl :=
  st_mul_t.decls ++ st_mul_f.decls ++ st_mul_i.decls

/-- The composite `st_div` inherits from `st_div_t`, `st_div_f`, `st_div_i`. -/
def st_div.decls : List op_decl :=
  st_div_t.decls ++ st_div_f.decls ++ st_div_i.decls

/-- The composite `st_math` inherits from `st_add`, `st_sub`, `st_mul`, `st_div`. -/
def st_math.decls : List op_decl :=
  st_add.decls ++ st_sub.decls ++ st_mul.decls ++ st_div.decls

/-! ## Vocabulary of the properties -/

/-- Exactly one of three truth values holds. -/
def exactly_one (p q r : Bool) : Bool :=
  (p && !q && !r) || (!p && q && !r) || (!p && !q && r)

/-- Reference definition of equality for a floating-point representation:
`|a - b| <= eps * max(|a|, |b|)`, with `eps` the machine epsilon, evaluated in
the arithmetic of the representation. -/
def spec_equal_floating {fmt : Format} (a b : Fp fmt) : Bool :=
  Fp.le (Fp.fabs (Fp.sub a b)) (Fp.mul (Fp.epsilon fmt) (Fp.fmax (Fp.fabs a) (Fp.fabs b)))

/-- Reference definition of equality for every other representation: exact
equality of the stored values. -/
def spec_equal_exact {T : Type} [DecidableEq T] (a b : T) : Bool :=
  decide (a = b)

/-- The rational number a finite value stands for (`0` for the others). -/
def Fp.toRat {fmt : Format} : Fp fmt → ℚ
  | Fp.fin s m => (Fp.toInt s m : ℚ) / 2 ^ fmt.qexp
  | _ => 0

/-- Machine epsilon `2 ^ (1 - prec)` as a rational number. -/
def Format.eps (f : Format) : ℚ := 2 / 2 ^ f.prec

/-- The scaled-epsilon relation of the specification in exact arithmetic:
`|x - y| <= eps * max(|x|, |y|)`. -/
def spec_scaled_epsilon (eps x y : ℚ) : Prop :=
  |x - y| ≤ eps * max |x| |y|

/-- The `double` 1.0. -/
def d_one : strong_type double := ⟨Fp.one binary64⟩

/-- The `double` next above 1.0, that is `1.0 + epsilon`. -/
def d_one_next : strong_type double := ⟨Fp.fin false (binary64.oneMag + binary64.epsMag)⟩

/-- A `double` in the lowest normal binade: `1.5 * 2 ^ (-1022)`. -/
def d_tiny : strong_type double := ⟨Fp.fin false (2 ^ 52 + 2 ^ 51)⟩

/-- The `double` two quanta below `d_tiny`. -/
def d_tiny_below : strong_type double := ⟨Fp.fin false (2 ^ 52 + 2 ^ 51 - 2)⟩

/-- A `double` NaN. -/
def d_nan : strong_type double := ⟨Fp.nan⟩

/-- The `double` positive infinity. -/
def d_inf : strong_type double := ⟨Fp.inf false⟩

/-! ### Construction -/

/-- `explicit constexpr strong_type( ty_t&& v )`, the move form: `v_{ std::move( v ) }`. -/
def strong_type.construct_move {ty_t : Type} (v : ty_t) : strong_type ty_t := ⟨v⟩

/-- Value-initialisation `ty_t v_{}` of a representation: zero for the
arithmetic types. -/
class ValueInit (T : Type) where
  value_init : T

instance instValueInitFp (fmt : Format) : ValueInit (Fp fmt) where
  value_init := Fp.fin false 0

instance instValueInitMInt (w : Nat) (sg : Bool) : ValueInit (MInt w sg) where
  value_init := ⟨0⟩

/-- `constexpr strong_type() = default;` with the member initialiser `ty_t v_{}`. -/
def strong_type.default_construct {ty_t : Type} [ValueInit ty_t] : strong_type ty_t :=
  ⟨ValueInit.value_init⟩

/-! ### Reference definitions of the ordering operators -/

/-- Reference definition of `<`: raw-value less-than and not equal under the
equality skill. -/
def spec_lt {ty_t : Type} [Representation ty_t] (a b : strong_type ty_t) : Bool :=
  Representation.lt a.get b.get && !(st_eq.op_eq a b)

/-- Reference definition of `>`: `rhs < lhs`. -/
def spec_gt {ty_t : Type} [Representation ty_t] (a b : strong_type ty_t) : Bool :=
  spec_lt b a

/-- Reference definition of `>=`: not `lhs < rhs`. -/
def spec_ge {ty_t : Type} [Representation ty_t] (a b : strong_type ty_t) : Bool :=
  !(spec_lt a b)

/-- Reference definition of `<=`: not `rhs < lhs`. -/
def spec_le {ty_t : Type} [Representation ty_t] (a b : strong_type ty_t) : Bool :=
  !(spec_lt b a)

/-- The scaled epsilon `eps * max(|a|, |b|)` of two finite magnitudes as the
code computes it: the rounded magnitude, before the overflow test. -/
def Format.scaledEps (fmt : Format) (m1 m2 : Nat) : Nat :=
  rnd fmt.prec (fmt.epsMag * max m1 m2) (2 ^ fmt.qexp)

/-- The `double` 2.0. -/
def d_two : double := Fp.ofInt binary64 2

/-- The `double` 10.0. -/
def d_ten : double := Fp.ofInt binary64 10

/-- The `double` computed as `1.0 + epsilon / 2`. -/
def d_one_plus_half_eps : strong_type double :=
  ⟨Fp.add (Fp.one binary64) (Fp.div (Fp.epsilon binary64) d_two)⟩

/-- The `double` computed as `1.0 + epsilon * 10`. -/
def d_one_plus_ten_eps : strong_type double :=
  ⟨Fp.add (Fp.one binary64) (Fp.mul (Fp.epsilon binary64) d_ten)⟩

/-- The `double` `1.0 + 2 * epsilon`. -/
def d_one_next2 : strong_type double :=
  ⟨Fp.fin false (binary64.oneMag + 2 * binary64.epsMag)⟩

/-- The `double` zero. -/
def d_zero : strong_type double := ⟨Fp.fin false 0⟩

/-- The smallest positive `double`, one quantum. -/
def d_min : strong_type double := ⟨Fp.fin false 1⟩

/-- The `double` next below 1.0, that is `1.0 - epsilon`. -/
def d_one_prev : strong_type double := ⟨Fp.fin false (binary64.oneMag - binary64.epsMag)⟩

/-- Built-in `a <= b` on integers. -/
def MInt.le {w : Nat} {sg : Bool} (a b : MInt w sg) : Bool := decide (a.val ≤ b.val)

/-- Built-in `a > b` on integers. -/
def MInt.gt {w : Nat} {sg : Bool} (a b : MInt w sg) : Bool := decide (b.val < a.val)

/-- Built-in `a >= b` on integers. -/
def MInt.ge {w : Nat} {sg : Bool} (a b : MInt w sg) : Bool := decide (b.val ≤ a.val)

/-! ### Comparison of results -/

/-- The value read back with `get()` from the result of an operator. -/
def read_back {T : Type} (r : Option (strong_type T)) : Option T :=
  r.map strong_type.get

/-- Built-in `==` of two results of the representation: both are present and
compare equal. -/
def builtin_equal {T : Type} [Representation T] (a b : Option T) : Bool :=
  match a, b with
  | some x, some y => Representation.eq x y
  | _, _ => false

/-- Equality of the skill, `detail::st_test_equality`, of two results of the
representation: both are present and compare equal. -/
def skill_equal {T : Type} [Representation T] (a b : Option T) : Bool :=
  match a, b with
  | some x, some y => detail.st_test_equality x y
  | _, _ => false

/-- The `double` negative infinity. -/
def d_neg_inf : strong_type double := ⟨Fp.inf true⟩

/-- The largest finite `double`. -/
def d_max : strong_type double := ⟨Fp.fin false binary64.maxMag⟩

/-- The `int32_t` value 2. -/
def i_two : int32_t := ⟨2⟩

/-- The `int32_t` value 3. -/
def i_three : int32_t := ⟨3⟩

/-! ## Rounding -/

/-- With enough fuel the bit length of `n` is the least `k` with `n < 2 ^ k`. -/
theorem bitlenAux_le_iff (fuel : Nat) : ∀ n k : Nat, n ≤ fuel →
    (bitlenAux fuel n ≤ k ↔ n < 2 ^ k) := by
  induction fuel with
  | zero =>
    intro n k hn
    have : n = 0 := by omega
    subst this
    simp [bitlenAux]
  | succ f ih =>
    intro n k hn
    by_cases h0 : n = 0
    · subst h0
      simp [bitlenAux]
    · simp only [bitlenAux, h0, if_false]
      cases k with
      | zero =>
        simp only [pow_zero, Nat.lt_one_iff]
        constructor
        · intro h; omega
        · intro h; exact absurd h h0
      | succ k =>
        have hle : n / 2 ≤ f := by omega
        rw [Nat.add_le_add_iff_right, ih (n / 2) k hle, pow_succ]
        constructor
        · intro h; omega
        · intro h; omega

theorem bitlen_le_iff (n k : Nat) : bitlen n ≤ k ↔ n < 2 ^ k :=
  bitlenAux_le_iff n n k (Nat.le_refl n)

theorem lt_two_pow_bitlen (n : Nat) : n < 2 ^ bitlen n :=
  (bitlen_le_iff n (bitlen n)).mp (Nat.le_refl _)

theorem two_pow_le_of_lt_bitlen {n k : Nat} (h : k < bitlen n) : 2 ^ k ≤ n := by
  by_contra hc
  have := (bitlen_le_iff n k).mpr (by omega)
  omega

theorem bitlen_mono {n m : Nat} (h : n ≤ m) : bitlen n ≤ bitlen m :=
  (bitlen_le_iff n _).mpr (lt_of_le_of_lt h (lt_two_pow_bitlen m))

theorem bitlen_zero : bitlen 0 = 0 := rfl

theorem rne_le_succ (n d : Nat) : rne n d ≤ n / d + 1 := by
  unfold rne
  simp only
  split
  · omega
  · split
    · omega
    · split <;> omega

theorem div_le_rne (n d : Nat) : n / d ≤ rne n d := by
  unfold rne
  simp only
  split
  · omega
  · split
    · omega
    · split <;> omega

theorem rne_mul_self (q d : Nat) (hd : 0 < d) : rne (q * d) d = q := by
  unfold rne
  simp [Nat.mul_mod_left, Nat.mul_div_cancel _ hd, hd]

/-- Rounding to the nearest integer is monotone in the numerator. -/
theorem rne_mono {n m : Nat} (d : Nat) (h : n ≤ m) : rne n d ≤ rne m d := by
  have hq : n / d ≤ m / d := Nat.div_le_div_right h
  rcases Nat.lt_or_ge (n / d) (m / d) with hlt | hge
  · calc rne n d ≤ n / d + 1 := rne_le_succ n d
      _ ≤ m / d := hlt
      _ ≤ rne m d := div_le_rne m d
  · have heq : n / d = m / d := le_antisymm hq hge
    have hr : n % d ≤ m % d := by
      have h1 := Nat.div_add_mod n d
      have h2 := Nat.div_add_mod m d
      rw [heq] at h1
      omega
    unfold rne
    simp only [heq]
    split_ifs <;> omega

/-- Rounding depends on the ratio only. -/
theorem rne_scale (k n d : Nat) (hk : 0 < k) : rne (k * n) (k * d) = rne n d := by
  unfold rne
  simp only [Nat.mul_div_mul_left _ _ hk, Nat.mul_mod_mul_left]
  have e1 : (2 * (k * (n % d)) < k * d) ↔ (2 * (n % d) < d) := by
    rw [show 2 * (k * (n % d)) = k * (2 * (n % d)) by ring]
    exact Nat.mul_lt_mul_left hk
  have e2 : (k * d < 2 * (k * (n % d))) ↔ (d < 2 * (n % d)) := by
    rw [show 2 * (k * (n % d)) = k * (2 * (n % d)) by ring]
    exact Nat.mul_lt_mul_left hk
  simp only [e1, e2]


theorem rnd_scale (p k n d : Nat) (hk : 0 < k) : rnd p (k * n) (k * d) = rnd p n d := by
  unfold rnd
  simp only [Nat.mul_div_mul_left _ _ hk]
  rw [Nat.mul_assoc, rne_scale _ _ _ hk]

/-- A magnitude that fits in `p` significant bits is left as it is. -/
theorem rnd_of_fits (p n : Nat) (h : n % 2 ^ (bitlen n - p) = 0) : rnd p n 1 = n := by
  unfold rnd
  simp only [Nat.div_one, Nat.one_mul]
  generalize bitlen n - p = g at h
  have hpos : 0 < 2 ^ g := by positivity
  obtain ⟨q, hq⟩ := Nat.dvd_of_mod_eq_zero h
  subst hq
  rw [Nat.mul_comm (2 ^ g) q, rne_mul_self q _ hpos]

/-- Rounding never exceeds the next power of two. -/
theorem rnd_le_two_pow (p n d : Nat) (hd : 0 < d) : rnd p n d ≤ 2 ^ bitlen (n / d) := by
  unfold rnd
  simp only
  set bl := bitlen (n / d) with hbl
  set g := bl - p with hg
  have hgle : g ≤ bl := Nat.sub_le _ _
  have hlt : n / d < 2 ^ bl := lt_two_pow_bitlen _
  have hn : n < 2 ^ bl * d := (Nat.div_lt_iff_lt_mul hd).mp hlt
  have hsplit : 2 ^ bl = 2 ^ (bl - g) * 2 ^ g := by
    rw [← pow_add]; congr 1; omega
  have hpos : 0 < d * 2 ^ g := by positivity
  have h1 : rne n (d * 2 ^ g) ≤ rne (2 ^ (bl - g) * (d * 2 ^ g)) (d * 2 ^ g) := by
    apply rne_mono
    have : 2 ^ (bl - g) * (d * 2 ^ g) = 2 ^ bl * d := by rw [hsplit]; ring
    omega
  rw [rne_mul_self _ _ hpos] at h1
  calc rne n (d * 2 ^ g) * 2 ^ g ≤ 2 ^ (bl - g) * 2 ^ g := Nat.mul_le_mul_right _ h1
    _ = 2 ^ bl := hsplit.symm

/-- Rounding never falls below the previous power of two. -/
theorem two_pow_le_rnd (p n d : Nat) (hp : 1 ≤ p) (hd : 0 < d) (h0 : 0 < bitlen (n / d)) :
    2 ^ (bitlen (n / d) - 1) ≤ rnd p n d := by
  unfold rnd
  simp only
  set bl := bitlen (n / d) with hbl
  set g := bl - p with hg
  have hgle : g ≤ bl - 1 := by omega
  have hB : 2 ^ (bl - 1) ≤ n / d := two_pow_le_of_lt_bitlen (by omega)
  have hn : 2 ^ (bl - 1) * d ≤ n := (Nat.le_div_iff_mul_le hd).mp hB
  have hsplit : 2 ^ (bl - 1) = 2 ^ (bl - 1 - g) * 2 ^ g := by
    rw [← pow_add]; congr 1; omega
  have hpos : 0 < d * 2 ^ g := by positivity
  have h1 : rne (2 ^ (bl - 1 - g) * (d * 2 ^ g)) (d * 2 ^ g) ≤ rne n (d * 2 ^ g) := by
    apply rne_mono
    have : 2 ^ (bl - 1 - g) * (d * 2 ^ g) = 2 ^ (bl - 1) * d := by rw [hsplit]; ring
    omega
  rw [rne_mul_self _ _ hpos] at h1
  calc 2 ^ (bl - 1) = 2 ^ (bl - 1 - g) * 2 ^ g := hsplit
    _ ≤ rne n (d * 2 ^ g) * 2 ^ g := Nat.mul_le_mul_right _ h1

/-- Rounding to nearest is monotone. -/
theorem rnd_mono (p : Nat) {n m : Nat} (d : Nat) (hp : 1 ≤ p) (hd : 0 < d) (h : n ≤ m) :
    rnd p n d ≤ rnd p m d := by
  have hq : n / d ≤ m / d := Nat.div_le_div_right h
  have hb : bitlen (n / d) ≤ bitlen (m / d) := bitlen_mono hq
  rcases Nat.lt_or_ge (bitlen (n / d)) (bitlen (m / d)) with hlt | hge
  · calc rnd p n d ≤ 2 ^ bitlen (n / d) := rnd_le_two_pow p n d hd
      _ ≤ 2 ^ (bitlen (m / d) - 1) := Nat.pow_le_pow_right (by norm_num) (by omega)
      _ ≤ rnd p m d := two_pow_le_rnd p m d hp hd (by omega)
  · have heq : bitlen (n / d) = bitlen (m / d) := le_antisymm hb hge
    unfold rnd
    simp only [heq]
    exact Nat.mul_le_mul_right _ (rne_mono _ h)


theorem bitlen_pos {n : Nat} (hn : 0 < n) : 0 < bitlen n := by
  by_contra h0
  have h3 := (bitlen_le_iff n 0).mp (by omega)
  simp at h3
  omega

theorem bitlen_two_pow_mul (k n : Nat) (hn : 0 < n) : bitlen (2 ^ k * n) = bitlen n + k := by
  have hpos := bitlen_pos hn
  apply le_antisymm
  · rw [bitlen_le_iff, Nat.add_comm, pow_add]
    exact Nat.mul_lt_mul_of_pos_left (lt_two_pow_bitlen n) (by positivity)
  · by_contra hc
    have h1 : bitlen (2 ^ k * n) ≤ k + (bitlen n - 1) := by omega
    rw [bitlen_le_iff, pow_add] at h1
    have h2 : n < 2 ^ (bitlen n - 1) := Nat.lt_of_mul_lt_mul_left h1
    have := (bitlen_le_iff n _).mpr h2
    omega

/-- If `2 ^ k * e` fits in `p` bits, so does `e`. -/
theorem fits_of_two_pow_mul (p k e : Nat)
    (h : (2 ^ k * e) % 2 ^ (bitlen (2 ^ k * e) - p) = 0) :
    e % 2 ^ (bitlen e - p) = 0 := by
  rcases Nat.eq_zero_or_pos e with h0 | hpos
  · subst h0; simp
  · rw [bitlen_two_pow_mul k e hpos] at h
    have hd : 2 ^ (bitlen e + k - p) ∣ 2 ^ k * e := Nat.dvd_of_mod_eq_zero h
    apply Nat.mod_eq_zero_of_dvd
    rcases Nat.lt_or_ge (bitlen e) p with hlt | hge
    · have : bitlen e - p = 0 := by omega
      rw [this, pow_zero]
      exact Nat.one_dvd _
    · have e1 : bitlen e + k - p = k + (bitlen e - p) := by omega
      rw [e1, pow_add] at hd
      exact Nat.dvd_of_mul_dvd_mul_left (by positivity) hd

/-- Near the scaled epsilon the rounded difference of two representable
magnitudes is exact: it is below the tolerance exactly when the difference is. -/
theorem rnd_le_iff_of_exact (p m1 m2 D E0 : Nat) (hp : 3 ≤ p)
    (h1 : m1 % 2 ^ (bitlen m1 - p) = 0) (h2 : m2 % 2 ^ (bitlen m2 - p) = 0)
    (hM : max m1 m2 = 2 ^ (p - 1) * E0)
    (hD : max m1 m2 - min m1 m2 ≤ D)
    (hdiv : ∀ g, 2 ^ g ∣ m1 → 2 ^ g ∣ m2 → 2 ^ g ∣ D) :
    rnd p D 1 ≤ E0 ↔ D ≤ E0 := by
  have hMfits : (max m1 m2) % 2 ^ (bitlen (max m1 m2) - p) = 0 := by
    rcases Nat.le_total m1 m2 with h | h
    · rw [Nat.max_eq_right h]; exact h2
    · rw [Nat.max_eq_left h]; exact h1
  have hE0fits : E0 % 2 ^ (bitlen E0 - p) = 0 := by
    rw [hM] at hMfits
    exact fits_of_two_pow_mul p (p - 1) E0 hMfits
  have hE0 : rnd p E0 1 = E0 := rnd_of_fits p E0 hE0fits
  constructor
  · intro hr
    by_contra hc
    have hlt : E0 < D := by omega
    have hbm : bitlen E0 ≤ bitlen D := bitlen_mono (Nat.le_of_lt hlt)
    have hDpos : 0 < D := by omega
    rcases Nat.lt_or_ge (bitlen E0) (bitlen D) with hbl | hbl
    · -- the difference is in a higher binade than the tolerance
      have h3 : 2 ^ (bitlen (D / 1) - 1) ≤ rnd p D 1 :=
        two_pow_le_rnd p D 1 (by omega) (by norm_num) (by rw [Nat.div_one]; exact bitlen_pos hDpos)
      rw [Nat.div_one] at h3
      have h4 : 2 ^ bitlen E0 ≤ 2 ^ (bitlen D - 1) :=
        Nat.pow_le_pow_right (by norm_num) (by omega)
      have h5 := lt_two_pow_bitlen E0
      omega
    · -- same binade: the difference is representable
      have hbeq : bitlen D = bitlen E0 := le_antisymm hbl hbm
      have hDfits : D % 2 ^ (bitlen D - p) = 0 := by
        rcases Nat.lt_or_ge p (bitlen D) with hgt | hle
        · -- both magnitudes are multiples of the grid of the difference
          have hE0pos : 0 < E0 := by
            by_contra h0
            have : E0 = 0 := by omega
            subst this
            have : bitlen D = 0 := by rw [hbeq]; rfl
            omega
          have hbM : bitlen (max m1 m2) = bitlen E0 + (p - 1) := by
            rw [hM]; exact bitlen_two_pow_mul _ _ hE0pos
          set b := bitlen (max m1 m2) with hb
          have hDlt : D < 2 ^ (b - p + 1) := by
            have := lt_two_pow_bitlen D
            have e : bitlen D = b - p + 1 := by omega
            rwa [e] at this
          have hMge : 2 ^ (b - 1) ≤ max m1 m2 := two_pow_le_of_lt_bitlen (by omega)
          have hpw : 2 ^ (b - p + 1) + 2 ^ (b - 2) ≤ 2 ^ (b - 1) := by
            have e1 : 2 ^ (b - 1) = 2 ^ (b - 2) + 2 ^ (b - 2) := by
              have : b - 1 = (b - 2) + 1 := by omega
              rw [this, pow_succ]; ring
            have e2 : 2 ^ (b - p + 1) ≤ 2 ^ (b - 2) :=
              Nat.pow_le_pow_right (by norm_num) (by omega)
            omega
          have hmin : 2 ^ (b - 2) ≤ min m1 m2 := by omega
          have hbl1 : b - 1 ≤ bitlen m1 := by
            by_contra hcon
            have := (bitlen_le_iff m1 (b - 2)).mp (by omega)
            have : min m1 m2 ≤ m1 := Nat.min_le_left _ _
            omega
          have hbl2 : b - 1 ≤ bitlen m2 := by
            by_contra hcon
            have := (bitlen_le_iff m2 (b - 2)).mp (by omega)
            have : min m1 m2 ≤ m2 := Nat.min_le_right _ _
            omega
          have hd1 : 2 ^ (bitlen D - p) ∣ m1 :=
            Nat.dvd_trans (Nat.pow_dvd_pow 2 (by omega)) (Nat.dvd_of_mod_eq_zero h1)
          have hd2 : 2 ^ (bitlen D - p) ∣ m2 :=
            Nat.dvd_trans (Nat.pow_dvd_pow 2 (by omega)) (Nat.dvd_of_mod_eq_zero h2)
          exact Nat.mod_eq_zero_of_dvd (hdiv _ hd1 hd2)
        · have : bitlen D - p = 0 := by omega
          rw [this, pow_zero, Nat.mod_one]
      have := rnd_of_fits p D hDfits
      omega
  · intro hle
    calc rnd p D 1 ≤ rnd p E0 1 := rnd_mono p 1 (by omega) (by norm_num) hle
      _ = E0 := hE0

/-! ## Facts about the floating-point primitives -/

namespace Fp

variable {fmt : Format}

theorem fabs_pack (s : Bool) (m : Nat) : fabs (pack fmt s m) = pack fmt false m := by
  unfold pack; split <;> rfl

theorem toInt_false (m : Nat) : toInt false m = (m : Int) := rfl

theorem fabs_sub_comm (a b : Fp fmt) : fabs (sub a b) = fabs (sub b a) := by
  cases a with
  | nan => cases b <;> rfl
  | inf s1 =>
    cases b with
    | nan => rfl
    | inf s2 => cases s1 <;> cases s2 <;> rfl
    | fin s2 m2 => rfl
  | fin s1 m1 =>
    cases b with
    | nan => rfl
    | inf s2 => rfl
    | fin s2 m2 =>
      have h : toInt s2 m2 - toInt s1 m1 = -(toInt s1 m1 - toInt s2 m2) := by ring
      simp only [sub, h]
      by_cases h0 : toInt s1 m1 - toInt s2 m2 = 0
      · rw [h0]; rfl
      · have h1 : ¬ -(toInt s1 m1 - toInt s2 m2) = 0 := by omega
        rw [if_neg h0, if_neg h1, fabs_pack, fabs_pack, Int.natAbs_neg]

theorem fmax_fabs_comm (a b : Fp fmt) : fmax (fabs a) (fabs b) = fmax (fabs b) (fabs a) := by
  cases a with
  | nan => cases b <;> rfl
  | inf s1 =>
    cases b with
    | nan => rfl
    | inf s2 => rfl
    | fin s2 m2 => rfl
  | fin s1 m1 =>
    cases b with
    | nan => rfl
    | inf s2 => rfl
    | fin s2 m2 =>
      simp only [fabs, fmax, lt, toInt_false, Nat.cast_lt]
      by_cases h1 : m1 < m2
      · have h2 : ¬ m2 < m1 := by omega
        simp [h1, h2]
      · by_cases h2 : m2 < m1
        · simp [h1, h2]
        · have : m1 = m2 := by omega
          simp [this]

end Fp

theorem st_test_equality_fp {fmt : Format} (a b : Fp fmt) :
    detail.st_test_equality a b =
      Fp.le (Fp.fabs (Fp.sub a b))
        (Fp.mul (Fp.epsilon fmt) (Fp.fmax (Fp.fabs a) (Fp.fabs b))) := rfl

theorem st_test_equality_mint {w : Nat} {sg : Bool} (a b : MInt w sg) :
    detail.st_test_equality a b = MInt.eq a b := rfl

theorem st_test_equality_fp_comm {fmt : Format} (a b : Fp fmt) :
    detail.st_test_equality a b = detail.st_test_equality b a := by
  rw [st_test_equality_fp, st_test_equality_fp, Fp.fabs_sub_comm a b, Fp.fmax_fabs_comm a b]

theorem st_test_equality_mint_comm {w : Nat} {sg : Bool} (a b : MInt w sg) :
    detail.st_test_equality a b = detail.st_test_equality b a := by
  rw [st_test_equality_mint, st_test_equality_mint]
  unfold MInt.eq
  by_cases h : a.val = b.val
  · simp [h]
  · have h2 : ¬ b.val = a.val := fun e => h e.symm
    simp [h, h2]


theorem op_eq_fp_comm {fmt : Format} (a b : strong_type (Fp fmt)) :
    st_eq.op_eq a b = st_eq.op_eq b a :=
  st_test_equality_fp_comm _ _

theorem op_eq_mint_comm {w : Nat} {sg : Bool} (a b : strong_type (MInt w sg)) :
    st_eq.op_eq a b = st_eq.op_eq b a :=
  st_test_equality_mint_comm _ _

theorem op_eq_mint_iff {w : Nat} {sg : Bool} (a b : strong_type (MInt w sg)) :
    st_eq.op_eq a b = true ↔ a.get = b.get := by
  obtain ⟨⟨x⟩⟩ := a
  obtain ⟨⟨y⟩⟩ := b
  show detail.st_test_equality (⟨x⟩ : MInt w sg) ⟨y⟩ = true ↔ (⟨x⟩ : MInt w sg) = ⟨y⟩
  rw [st_test_equality_mint]
  simp [MInt.eq]

/-- Scaled epsilon of a finite magnitude is a non-negative finite value or `+inf`. -/
theorem Fp.zero_le_mul_epsilon {fmt : Format} (m : Nat) :
    Fp.le (Fp.fin false 0) (Fp.mul (Fp.epsilon fmt) (Fp.fin false m)) = true := by
  simp only [Fp.mul, Fp.epsilon, Fp.pack]
  split <;> simp [Fp.le, Fp.toInt]

theorem Fp.fmax_fabs_fin {fmt : Format} (s1 s2 : Bool) (m1 m2 : Nat) :
    Fp.fmax (Fp.fabs (Fp.fin s1 m1 : Fp fmt)) (Fp.fabs (Fp.fin s2 m2)) =
      Fp.fin false (max m1 m2) := by
  simp only [Fp.fabs, Fp.fmax, Fp.lt, Fp.toInt_false, Nat.cast_lt]
  by_cases h : m1 < m2
  · simp [h, Nat.max_eq_right (Nat.le_of_lt h)]
  · simp [h, Nat.max_eq_left (Nat.le_of_not_lt h)]

/-- Two finite values holding the same number compare equal. -/
theorem st_test_equality_fin_of_toInt_eq {fmt : Format} (s1 s2 : Bool) (m1 m2 : Nat)
    (h : Fp.toInt s1 m1 = Fp.toInt s2 m2) :
    detail.st_test_equality (Fp.fin s1 m1 : Fp fmt) (Fp.fin s2 m2) = true := by
  rw [st_test_equality_fp, Fp.fmax_fabs_fin]
  have h0 : Fp.toInt s1 m1 - Fp.toInt s2 m2 = 0 := by omega
  simp only [Fp.sub, h0, if_true, Fp.fabs]
  exact Fp.zero_le_mul_epsilon _

theorem Format.epsMag_ne_zero (fmt : Format) : fmt.epsMag ≠ 0 := by
  unfold Format.epsMag; positivity

/-- An infinity compares equal to every finite value. -/
theorem st_test_equality_inf_fin {fmt : Format} (s1 s2 : Bool) (m : Nat) :
    detail.st_test_equality (Fp.inf s1 : Fp fmt) (Fp.fin s2 m) = true := by
  rw [st_test_equality_fp]
  simp [Fp.sub, Fp.fabs, Fp.fmax, Fp.lt, Fp.mul, Fp.epsilon, Format.epsMag_ne_zero, Fp.le]

/-- Two infinities of opposite sign compare equal. -/
theorem st_test_equality_inf_inf {fmt : Format} (s : Bool) :
    detail.st_test_equality (Fp.inf s : Fp fmt) (Fp.inf (!s)) = true := by
  rw [st_test_equality_fp]
  cases s <;>
    simp [Fp.sub, Fp.fabs, Fp.fmax, Fp.lt, Fp.mul, Fp.epsilon, Format.epsMag_ne_zero, Fp.le]

/-- An infinity does not compare equal to itself. -/
theorem st_test_equality_inf_self {fmt : Format} (s : Bool) :
    detail.st_test_equality (Fp.inf s : Fp fmt) (Fp.inf s) = false := by
  rw [st_test_equality_fp]
  simp [Fp.sub, Fp.fabs, Fp.le]



/-! ## Equality and ordering -/

/-- `operator<` spelled out. -/
theorem op_lt_eq {ty_t : Type} [Representation ty_t] (a b : strong_type ty_t) :
    st_cmp.op_lt a b = (Representation.lt a.get b.get && !(st_eq.op_eq a b)) := rfl

/-- When `==` holds, it is the only one of `<`, `==`, `>` that does. -/
theorem exactly_one_of_op_eq {ty_t : Type} [Representation ty_t] (a b : strong_type ty_t)
    (hc : st_eq.op_eq b a = st_eq.op_eq a b) (h : st_eq.op_eq a b = true) :
    exactly_one (st_cmp.op_lt a b) (st_eq.op_eq a b) (st_cmp.op_gt a b) = true := by
  unfold st_cmp.op_gt
  rw [op_lt_eq, op_lt_eq, hc, h]
  simp [exactly_one]

/-- Trichotomy for floating-point values away from NaN and from a pair of equal
infinities. -/
theorem trichotomy_fp {fmt : Format} (a b : strong_type (Fp fmt))
    (ha : a.get.isNaN = false) (hb : b.get.isNaN = false)
    (hi : ¬ ∃ s, a.get = Fp.inf s ∧ b.get = Fp.inf s) :
    exactly_one (st_cmp.op_lt a b) (st_eq.op_eq a b) (st_cmp.op_gt a b) = true := by
  obtain ⟨x⟩ := a
  obtain ⟨y⟩ := b
  have hc := op_eq_fp_comm (⟨y⟩ : strong_type (Fp fmt)) ⟨x⟩
  cases x with
  | nan => simp [strong_type.get, Fp.isNaN] at ha
  | inf s1 =>
    cases y with
    | nan => simp [strong_type.get, Fp.isNaN] at hb
    | inf s2 =>
      have hs : s2 = !s1 := by
        cases s1 <;> cases s2 <;> simp_all [strong_type.get]
      subst hs
      exact exactly_one_of_op_eq _ _ hc (st_test_equality_inf_inf s1)
    | fin s2 m2 => exact exactly_one_of_op_eq _ _ hc (st_test_equality_inf_fin s1 s2 m2)
  | fin s1 m1 =>
    cases y with
    | nan => simp [strong_type.get, Fp.isNaN] at hb
    | inf s2 =>
      refine exactly_one_of_op_eq _ _ hc ?_
      rw [← hc]
      exact st_test_equality_inf_fin s2 s1 m1
    | fin s2 m2 =>
      by_cases he : st_eq.op_eq (⟨Fp.fin s1 m1⟩ : strong_type (Fp fmt)) ⟨Fp.fin s2 m2⟩ = true
      · exact exactly_one_of_op_eq _ _ hc he
      · have hne : Fp.toInt s1 m1 ≠ Fp.toInt s2 m2 := fun e =>
          he (st_test_equality_fin_of_toInt_eq s1 s2 m1 m2 e)
        have he' : st_eq.op_eq (⟨Fp.fin s1 m1⟩ : strong_type (Fp fmt)) ⟨Fp.fin s2 m2⟩ = false := by
          simpa using he
        unfold st_cmp.op_gt
        rw [op_lt_eq, op_lt_eq, hc, he']
        show exactly_one (decide (Fp.toInt s1 m1 < Fp.toInt s2 m2) && !false) false
          (decide (Fp.toInt s2 m2 < Fp.toInt s1 m1) && !false) = true
        rcases lt_or_gt_of_ne hne with h | h
        · have h2 : ¬ Fp.toInt s2 m2 < Fp.toInt s1 m1 := by omega
          simp [exactly_one, h, h2]
        · have h2 : ¬ Fp.toInt s1 m1 < Fp.toInt s2 m2 := by omega
          simp [exactly_one, h, h2]

/-- Trichotomy for integer values. -/
theorem trichotomy_mint {w : Nat} {sg : Bool} (a b : strong_type (MInt w sg)) :
    exactly_one (st_cmp.op_lt a b) (st_eq.op_eq a b) (st_cmp.op_gt a b) = true := by
  obtain ⟨⟨x⟩⟩ := a
  obtain ⟨⟨y⟩⟩ := b
  unfold st_cmp.op_gt
  rw [op_lt_eq, op_lt_eq, op_eq_mint_comm (⟨⟨y⟩⟩ : strong_type (MInt w sg)) ⟨⟨x⟩⟩]
  show exactly_one (decide (x < y) && !decide (x = y)) (decide (x = y))
    (decide (y < x) && !decide (x = y)) = true
  rcases lt_trichotomy x y with h | h | h
  · have h1 : ¬ x = y := by omega
    have h2 : ¬ y < x := by omega
    simp [exactly_one, h, h1, h2]
  · subst h
    simp [exactly_one]
  · have h1 : ¬ x = y := by omega
    have h2 : ¬ x < y := by omega
    simp [exactly_one, h, h1, h2]


theorem st_test_equality_nan_left {fmt : Format} (b : Fp fmt) :
    detail.st_test_equality (Fp.nan : Fp fmt) b = false := by
  rw [st_test_equality_fp]
  cases b <;> simp [Fp.sub, Fp.fabs, Fp.le]

/-- With a NaN operand none of `<`, `==`, `>` holds. -/
theorem all_false_of_nan {fmt : Format} (a b : strong_type (Fp fmt))
    (h : a.get.isNaN = true ∨ b.get.isNaN = true) :
    st_cmp.op_lt a b = false ∧ st_eq.op_eq a b = false ∧ st_cmp.op_gt a b = false := by
  obtain ⟨x⟩ := a
  obtain ⟨y⟩ := b
  have hc := op_eq_fp_comm (⟨y⟩ : strong_type (Fp fmt)) ⟨x⟩
  unfold st_cmp.op_gt
  rw [op_lt_eq, op_lt_eq, hc]
  rcases h with h | h
  · cases x with
    | nan =>
      have e : st_eq.op_eq (⟨Fp.nan⟩ : strong_type (Fp fmt)) ⟨y⟩ = false :=
        st_test_equality_nan_left y
      rw [e]
      cases y <;> simp [strong_type.get, Representation.lt, Fp.lt]
    | inf s => simp [strong_type.get, Fp.isNaN] at h
    | fin s m => simp [strong_type.get, Fp.isNaN] at h
  · cases y with
    | nan =>
      have e : st_eq.op_eq (⟨x⟩ : strong_type (Fp fmt)) ⟨Fp.nan⟩ = false := by
        rw [← hc]; exact st_test_equality_nan_left x
      rw [e]
      cases x <;> simp [strong_type.get, Representation.lt, Fp.lt]
    | inf s => simp [strong_type.get, Fp.isNaN] at h
    | fin s m => simp [strong_type.get, Fp.isNaN] at h

/-! ## Arithmetic primitives -/

/-- Built-in floating-point multiplication is commutative. -/
theorem Fp.mul_comm_fp {fmt : Format} (a b : Fp fmt) : Fp.mul a b = Fp.mul b a := by
  cases a with
  | nan => cases b <;> rfl
  | inf s1 =>
    cases b with
    | nan => rfl
    | inf s2 => simp [Fp.mul, Bool.xor_comm]
    | fin s2 m2 => simp [Fp.mul, Bool.xor_comm]
  | fin s1 m1 =>
    cases b with
    | nan => rfl
    | inf s2 => simp [Fp.mul, Bool.xor_comm]
    | fin s2 m2 => simp [Fp.mul, Bool.xor_comm, Nat.mul_comm]

/-- Built-in integer multiplication is commutative. -/
theorem MInt.mul_comm_mint {w : Nat} {sg : Bool} (a b : MInt w sg) :
    MInt.mul a b = MInt.mul b a := by
  unfold MInt.mul
  rw [Int.mul_comm]

/-! ## The scaled-epsilon test in exact arithmetic -/

theorem rnd_zero (p : Nat) : rnd p 0 1 = 0 := by
  apply rnd_of_fits
  simp

/-- The scaled epsilon of a magnitude `2 ^ (prec - 1) * E0` is `E0` exactly. -/
theorem Fp.mul_epsilon_exact {fmt : Format} (hp : 1 ≤ fmt.prec) (he : 1 ≤ fmt.emax) (E0 : Nat)
    (hfit : E0 % 2 ^ (bitlen E0 - fmt.prec) = 0) (hle : E0 ≤ fmt.maxMag) :
    Fp.mul (Fp.epsilon fmt) (Fp.fin false (2 ^ (fmt.prec - 1) * E0)) = Fp.fin false E0 := by
  have hq : fmt.epsMag * (2 ^ (fmt.prec - 1) * E0) = 2 ^ fmt.qexp * E0 := by
    unfold Format.epsMag Format.qexp
    rw [← Nat.mul_assoc, ← pow_add]
    congr 2
    omega
  have hr : rnd fmt.prec (fmt.epsMag * (2 ^ (fmt.prec - 1) * E0)) (2 ^ fmt.qexp) = E0 := by
    rw [hq]
    have := rnd_scale fmt.prec (2 ^ fmt.qexp) E0 1 (by positivity)
    rw [Nat.mul_one] at this
    rw [this, rnd_of_fits _ _ hfit]
  simp only [Fp.mul, Fp.epsilon, hr, Fp.pack, hle, if_true, Bool.xor_false]

/-- With a finite tolerance `E`, two finite values compare equal exactly when
the rounded magnitude of their difference is at most `E`. -/
theorem st_test_equality_fin_iff {fmt : Format} (s1 s2 : Bool) (m1 m2 E : Nat)
    (hmul : Fp.mul (Fp.epsilon fmt) (Fp.fin false (max m1 m2)) = Fp.fin false E)
    (hE : E ≤ fmt.maxMag) :
    detail.st_test_equality (Fp.fin s1 m1 : Fp fmt) (Fp.fin s2 m2) = true ↔
      rnd fmt.prec (Fp.toInt s1 m1 - Fp.toInt s2 m2).natAbs 1 ≤ E := by
  rw [st_test_equality_fp, Fp.fmax_fabs_fin, hmul]
  simp only [Fp.sub]
  by_cases h0 : Fp.toInt s1 m1 - Fp.toInt s2 m2 = 0
  · rw [if_pos h0, h0]
    simp [Fp.fabs, Fp.le, Fp.toInt, rnd_zero]
  · rw [if_neg h0, Fp.fabs_pack]
    unfold Fp.pack
    split
    · simp [Fp.le, Fp.toInt]
    · simp only [Fp.le]
      constructor
      · intro h; cases h
      · intro h; omega

theorem Fp.natAbs_toInt (s : Bool) (m : Nat) : (Fp.toInt s m).natAbs = m := by
  cases s <;> simp [Fp.toInt]

/-- The scaled-epsilon relation on two finite values, cleared of denominators. -/
theorem spec_scaled_epsilon_iff {fmt : Format} (s1 s2 : Bool) (m1 m2 : Nat) :
    spec_scaled_epsilon fmt.eps (Fp.fin s1 m1 : Fp fmt).toRat (Fp.fin s2 m2 : Fp fmt).toRat ↔
      (Fp.toInt s1 m1 - Fp.toInt s2 m2).natAbs * 2 ^ fmt.prec ≤ 2 * max m1 m2 := by
  unfold spec_scaled_epsilon Fp.toRat Format.eps
  set D := (Fp.toInt s1 m1 - Fp.toInt s2 m2).natAbs with hDdef
  have hQ : (0 : ℚ) < 2 ^ fmt.qexp := by positivity
  have hP : (0 : ℚ) < 2 ^ fmt.prec := by positivity
  have habs : ∀ (s : Bool) (m : Nat), |((Fp.toInt s m : Int) : ℚ)| = (m : ℚ) := by
    intro s m
    cases s <;> simp [Fp.toInt]
  have hl : |((Fp.toInt s1 m1 : Int) : ℚ) / 2 ^ fmt.qexp - (Fp.toInt s2 m2 : Int) / 2 ^ fmt.qexp|
      = (D : ℚ) / 2 ^ fmt.qexp := by
    rw [← sub_div, abs_div, abs_of_pos hQ, hDdef, Nat.cast_natAbs]
    push_cast
    rfl
  have hr : max |((Fp.toInt s1 m1 : Int) : ℚ) / 2 ^ fmt.qexp|
      |((Fp.toInt s2 m2 : Int) : ℚ) / 2 ^ fmt.qexp| = ((max m1 m2 : Nat) : ℚ) / 2 ^ fmt.qexp := by
    rw [abs_div, abs_div, abs_of_pos hQ, habs, habs]
    rcases Nat.le_total m1 m2 with h | h
    · rw [Nat.max_eq_right h, max_eq_right]
      exact div_le_div_of_nonneg_right (by exact_mod_cast h) hQ.le
    · rw [Nat.max_eq_left h, max_eq_left]
      exact div_le_div_of_nonneg_right (by exact_mod_cast h) hQ.le
  rw [hl, hr]
  have e : (2 : ℚ) / 2 ^ fmt.prec * (((max m1 m2 : Nat) : ℚ) / 2 ^ fmt.qexp)
      = (2 * ((max m1 m2 : Nat) : ℚ) / 2 ^ fmt.prec) / 2 ^ fmt.qexp := by
    field_simp
  rw [e, div_le_div_iff_of_pos_right hQ, le_div_iff₀ hP]
  constructor
  · intro h; exact_mod_cast h
  · intro h; exact_mod_cast h

/-- On finite values whose scaled epsilon is a whole number of quanta, the test
of the code is the scaled-epsilon relation in exact arithmetic. -/
theorem st_test_equality_exact {fmt : Format} (hp : 3 ≤ fmt.prec) (he : 1 ≤ fmt.emax)
    (s1 s2 : Bool) (m1 m2 : Nat)
    (h1 : Fp.representable fmt m1) (h2 : Fp.representable fmt m2)
    (hx : 2 ^ (fmt.prec - 1) ∣ max m1 m2) :
    detail.st_test_equality (Fp.fin s1 m1 : Fp fmt) (Fp.fin s2 m2) = true ↔
      spec_scaled_epsilon fmt.eps (Fp.fin s1 m1 : Fp fmt).toRat (Fp.fin s2 m2 : Fp fmt).toRat := by
  rw [spec_scaled_epsilon_iff]
  obtain ⟨E0, hM⟩ := hx
  set D := (Fp.toInt s1 m1 - Fp.toInt s2 m2).natAbs with hDdef
  have hMfits : (max m1 m2) % 2 ^ (bitlen (max m1 m2) - fmt.prec) = 0 ∧ max m1 m2 ≤ fmt.maxMag := by
    rcases Nat.le_total m1 m2 with h | h
    · rw [Nat.max_eq_right h]; exact h2
    · rw [Nat.max_eq_left h]; exact h1
  have hE0fits : E0 % 2 ^ (bitlen E0 - fmt.prec) = 0 := by
    have := hMfits.1
    rw [hM] at this
    exact fits_of_two_pow_mul _ _ _ this
  have hE0le : E0 ≤ fmt.maxMag := by
    have h3 : E0 ≤ 2 ^ (fmt.prec - 1) * E0 := Nat.le_mul_of_pos_left _ (by positivity)
    have := hMfits.2
    omega
  have hmul : Fp.mul (Fp.epsilon fmt) (Fp.fin false (max m1 m2)) = Fp.fin false E0 := by
    rw [hM]; exact Fp.mul_epsilon_exact (by omega) he E0 hE0fits hE0le
  rw [st_test_equality_fin_iff s1 s2 m1 m2 E0 hmul hE0le]
  have hD : max m1 m2 - min m1 m2 ≤ D := by
    have a1 := Fp.natAbs_toInt s1 m1
    have a2 := Fp.natAbs_toInt s2 m2
    rcases Nat.le_total m1 m2 with h | h
    · rw [Nat.max_eq_right h, Nat.min_eq_left h]; omega
    · rw [Nat.max_eq_left h, Nat.min_eq_right h]; omega
  have hdiv : ∀ g, 2 ^ g ∣ m1 → 2 ^ g ∣ m2 → 2 ^ g ∣ D := by
    intro g d1 d2
    have e1 : ((2 ^ g : Nat) : Int) ∣ Fp.toInt s1 m1 := by
      rw [← Int.dvd_natAbs, Fp.natAbs_toInt]; exact Int.natCast_dvd_natCast.mpr d1
    have e2 : ((2 ^ g : Nat) : Int) ∣ Fp.toInt s2 m2 := by
      rw [← Int.dvd_natAbs, Fp.natAbs_toInt]; exact Int.natCast_dvd_natCast.mpr d2
    have e3 := Int.dvd_sub e1 e2
    rw [← Int.dvd_natAbs] at e3
    exact Int.natCast_dvd_natCast.mp e3
  rw [rnd_le_iff_of_exact fmt.prec m1 m2 D E0 hp h1.1 h2.1 hM hD hdiv, hM]
  have hpw : 2 ^ fmt.prec = 2 * 2 ^ (fmt.prec - 1) := by
    rw [← pow_succ']; congr 1; omega
  have e1 : D * (2 * 2 ^ (fmt.prec - 1)) = (2 * 2 ^ (fmt.prec - 1)) * D := Nat.mul_comm _ _
  have e2 : 2 * (2 ^ (fmt.prec - 1) * E0) = (2 * 2 ^ (fmt.prec - 1)) * E0 := by ring
  rw [hpw, e1, e2]
  constructor
  · intro h; exact Nat.mul_le_mul_left _ h
  · intro h; exact Nat.le_of_mul_le_mul_left h (by positivity)

/-- Where the scaled epsilon underflows it is rounded, here upwards: the two
values differ by more than the exact tolerance and still compare equal. -/
theorem scaled_epsilon_underflow :
    Fp.valid d_tiny.get ∧ Fp.valid d_tiny_below.get ∧
    st_eq.op_eq d_tiny d_tiny_below = true ∧
    ¬ spec_scaled_epsilon binary64.eps d_tiny.get.toRat d_tiny_below.get.toRat := by
  refine ⟨by decide!, by decide!, by decide!, ?_⟩
  show ¬ spec_scaled_epsilon binary64.eps
    (Fp.fin false (2 ^ 52 + 2 ^ 51) : Fp binary64).toRat
    (Fp.fin false (2 ^ 52 + 2 ^ 51 - 2) : Fp binary64).toRat
  rw [spec_scaled_epsilon_iff]
  decide!

/-! ## The claims -/

/-- C1. `operator==` of `st_eq` returns exactly the reference definition: for a
floating-point representation the scaled-epsilon test
`|a - b| <= eps * max(|a|, |b|)` in the arithmetic of the representation, for
every other representation exact equality of the stored values.  On finite
values whose scaled epsilon `eps * max(|a|, |b|)` is a whole number of quanta
(no underflow) the floating-point test is the same relation in exact
arithmetic. -/
theorem st_eq_op_eq_is_reference :
    (∀ (fmt : Format) (a b : strong_type (Fp fmt)),
      is_floating_point_v (Fp fmt) = true ∧
      st_eq.op_eq a b = spec_equal_floating a.get b.get) ∧
    (∀ (w : Nat) (sg : Bool) (a b : strong_type (MInt w sg)),
      is_floating_point_v (MInt w sg) = false ∧
      st_eq.op_eq a b = spec_equal_exact a.get b.get) ∧
    (∀ (fmt : Format) (s1 s2 : Bool) (m1 m2 : Nat),
      3 ≤ fmt.prec → 1 ≤ fmt.emax →
      Fp.representable fmt m1 → Fp.representable fmt m2 →
      2 ^ (fmt.prec - 1) ∣ max m1 m2 →
      (st_eq.op_eq (⟨Fp.fin s1 m1⟩ : strong_type (Fp fmt)) ⟨Fp.fin s2 m2⟩ = true ↔
        spec_scaled_epsilon fmt.eps (Fp.fin s1 m1 : Fp fmt).toRat
          (Fp.fin s2 m2 : Fp fmt).toRat)) := by
  refine ⟨fun fmt a b => ⟨rfl, rfl⟩, fun w sg a b => ⟨rfl, ?_⟩,
    fun fmt s1 s2 m1 m2 hp he h1 h2 hx => st_test_equality_exact hp he s1 s2 m1 m2 h1 h2 hx⟩
  have h := op_eq_mint_iff a b
  unfold spec_equal_exact
  by_cases e : a.get = b.get
  · simp [e, h.mpr e]
  · have : st_eq.op_eq a b ≠ true := fun t => e (h.mp t)
    simp [e, this]

/-- The exact-arithmetic part of C1 at the `double`s 1.0 and 1.0 + epsilon. -/
theorem st_eq_op_eq_is_reference_witness :
    3 ≤ binary64.prec ∧ 1 ≤ binary64.emax ∧
    Fp.representable binary64 binary64.oneMag ∧
    Fp.representable binary64 (binary64.oneMag + binary64.epsMag) ∧
    2 ^ (binary64.prec - 1) ∣ max binary64.oneMag (binary64.oneMag + binary64.epsMag) ∧
    (st_eq.op_eq d_one d_one_next = true ↔
      spec_scaled_epsilon binary64.eps d_one.get.toRat d_one_next.get.toRat) :=
  ⟨(by decide), (by decide), (by decide!), (by decide!), (by decide!),
    st_eq_op_eq_is_reference.2.2 binary64 false false binary64.oneMag
      (binary64.oneMag + binary64.epsMag) (by decide) (by decide) (by decide!) (by decide!)
      (by decide!)⟩

/-- C2, as stated, fails: with a NaN on one side only (the other value is 1.0)
none of `a < b`, `a == b`, `a > b` holds, and the same is so for positive
infinity against itself. -/
theorem trichotomy_fails_with_one_nan :
    ((d_nan.get.isNaN && d_one.get.isNaN) = false ∧
      exactly_one (st_cmp.op_lt d_nan d_one) (st_eq.op_eq d_nan d_one)
        (st_cmp.op_gt d_nan d_one) = false) ∧
    ((d_inf.get.isNaN && d_inf.get.isNaN) = false ∧
      exactly_one (st_cmp.op_lt d_inf d_inf) (st_eq.op_eq d_inf d_inf)
        (st_cmp.op_gt d_inf d_inf) = false) := by
  decide!

/-- C2, amended. Exactly one of `a < b`, `a == b`, `a > b` holds for all `a`, `b`
of a floating-point representation of which neither is NaN and which are not
the same infinity, and for all `a`, `b` of an integer representation.  When
either value is NaN, all three are false. -/
theorem st_cmp_trichotomy :
    (∀ (fmt : Format) (a b : strong_type (Fp fmt)),
      a.get.isNaN = false → b.get.isNaN = false →
      (¬ ∃ s, a.get = Fp.inf s ∧ b.get = Fp.inf s) →
      exactly_one (st_cmp.op_lt a b) (st_eq.op_eq a b) (st_cmp.op_gt a b) = true) ∧
    (∀ (w : Nat) (sg : Bool) (a b : strong_type (MInt w sg)),
      exactly_one (st_cmp.op_lt a b) (st_eq.op_eq a b) (st_cmp.op_gt a b) = true) ∧
    (∀ (fmt : Format) (a b : strong_type (Fp fmt)),
      (a.get.isNaN = true ∨ b.get.isNaN = true) →
      st_cmp.op_lt a b = false ∧ st_eq.op_eq a b = false ∧ st_cmp.op_gt a b = false) :=
  ⟨fun _ a b ha hb hi => trichotomy_fp a b ha hb hi, fun _ _ a b => trichotomy_mint a b,
    fun _ a b h => all_false_of_nan a b h⟩

/-- The amended C2 at the `double`s 1.0 and 1.0 + epsilon, and at NaN against 1.0. -/
theorem st_cmp_trichotomy_witness :
    (d_one.get.isNaN = false ∧ d_one_next.get.isNaN = false ∧
      (¬ ∃ s, d_one.get = Fp.inf s ∧ d_one_next.get = Fp.inf s) ∧
      exactly_one (st_cmp.op_lt d_one d_one_next) (st_eq.op_eq d_one d_one_next)
        (st_cmp.op_gt d_one d_one_next) = true) ∧
    ((d_nan.get.isNaN = true ∨ d_one.get.isNaN = true) ∧
      st_cmp.op_lt d_nan d_one = false ∧ st_eq.op_eq d_nan d_one = false ∧
      st_cmp.op_gt d_nan d_one = false) :=
  ⟨⟨rfl, rfl, (by rintro ⟨s, h, _⟩; cases h),
      st_cmp_trichotomy.1 binary64 d_one d_one_next rfl rfl (by rintro ⟨s, h, _⟩; cases h)⟩,
    ⟨Or.inl rfl, st_cmp_trichotomy.2.2 binary64 d_nan d_one (Or.inl rfl)⟩⟩

/-- C3. For floating-point-backed `a`, `b` with `a == b`: `a < b` and `a > b` are
false, `a <= b` and `a >= b` are true, and `a == b` never holds together with
`a < b`. -/
theorem ordering_consistent_with_equality (fmt : Format) (a b : strong_type (Fp fmt))
    (h : st_eq.op_eq a b = true) :
    st_cmp.op_lt a b = false ∧ st_cmp.op_gt a b = false ∧
    st_cmp.op_le a b = true ∧ st_cmp.op_ge a b = true ∧
    ¬ (st_eq.op_eq a b = true ∧ st_cmp.op_lt a b = true) := by
  have h' : st_eq.op_eq b a = true := by rw [op_eq_fp_comm]; exact h
  have h1 : st_cmp.op_lt a b = false := by rw [op_lt_eq, h]; simp
  have h2 : st_cmp.op_lt b a = false := by rw [op_lt_eq, h']; simp
  refine ⟨h1, h2, ?_, ?_, ?_⟩
  · show (!(st_cmp.op_lt b a)) = true
    rw [h2]; rfl
  · show (!(st_cmp.op_lt a b)) = true
    rw [h1]; rfl
  · rw [h1]; simp

/-- C3 at the `double`s 1.0 and 1.0 + epsilon: their raw values differ and are
ordered, and they compare equal. -/
theorem ordering_consistent_with_equality_witness :
    st_eq.op_eq d_one d_one_next = true ∧ d_one.get ≠ d_one_next.get ∧
    Fp.lt d_one.get d_one_next.get = true ∧
    (st_cmp.op_lt d_one d_one_next = false ∧ st_cmp.op_gt d_one d_one_next = false ∧
    st_cmp.op_le d_one d_one_next = true ∧ st_cmp.op_ge d_one d_one_next = true ∧
    ¬ (st_eq.op_eq d_one d_one_next = true ∧ st_cmp.op_lt d_one d_one_next = true)) :=
  ⟨(by decide!), (by decide!), (by decide!),
    ordering_consistent_with_equality binary64 d_one d_one_next (by decide!)⟩

/-- C4. Equality is symmetric, for floating-point and for integer
representations. -/
theorem st_eq_op_eq_symmetric :
    (∀ (fmt : Format) (a b : strong_type (Fp fmt)), st_eq.op_eq a b = st_eq.op_eq b a) ∧
    (∀ (w : Nat) (sg : Bool) (a b : strong_type (MInt w sg)),
      st_eq.op_eq a b = st_eq.op_eq b a) :=
  ⟨fun _ a b => op_eq_fp_comm a b, fun _ _ a b => op_eq_mint_comm a b⟩

/-- C5, as stated, fails: positive infinity is not NaN and does not compare
equal to itself. -/
theorem reflexivity_fails_at_infinity :
    d_inf.get.isNaN = false ∧ st_eq.op_eq d_inf d_inf = false := by
  decide!

/-- C5, amended. `a == a` holds for every finite floating-point value (zeros of
either sign, negative values, subnormals included) and for every integer value. -/
theorem st_eq_op_eq_reflexive :
    (∀ (fmt : Format) (s : Bool) (m : Nat),
      st_eq.op_eq (⟨Fp.fin s m⟩ : strong_type (Fp fmt)) ⟨Fp.fin s m⟩ = true) ∧
    (∀ (w : Nat) (sg : Bool) (a : strong_type (MInt w sg)), st_eq.op_eq a a = true) :=
  ⟨fun _ s m => st_test_equality_fin_of_toInt_eq s s m m rfl,
    fun _ _ a => (op_eq_mint_iff a a).mpr rfl⟩

/-- C6. `a != b` is the negation of `a == b`, for every representation. -/
theorem st_eq_op_ne_is_negation (ty_t : Type) [Representation ty_t] (a b : strong_type ty_t) :
    st_eq.op_ne a b = !(st_eq.op_eq a b) := rfl


/-! ## Comparison of the results of the value forms -/

/-- Built-in `==` of a floating-point value with itself holds unless it is NaN. -/
theorem Fp.eq_self_iff {fmt : Format} (r : Fp fmt) : Fp.eq r r = !r.isNaN := by
  cases r with
  | nan => rfl
  | inf s => cases s <;> rfl
  | fin s m => simp [Fp.eq, Fp.isNaN]

/-- A finite value equals itself under the equality of the skill; a NaN does not. -/
theorem st_test_equality_self {fmt : Format} (r : Fp fmt) :
    (r.isFinite = true → detail.st_test_equality r r = true) ∧
    (r.isNaN = true → detail.st_test_equality r r = false) := by
  cases r with
  | nan => exact ⟨fun h => (by cases h), fun _ => st_test_equality_nan_left _⟩
  | inf s => exact ⟨fun h => (by cases h), fun h => (by cases h)⟩
  | fin s m =>
    exact ⟨fun _ => st_test_equality_fin_of_toInt_eq s s m m rfl, fun h => (by cases h)⟩

/-- Reading back a wrapped floating-point result and comparing it with the
result itself. -/
theorem read_back_fp {fmt : Format} (r : Fp fmt) :
    (r.isNaN = false →
      builtin_equal (read_back ((some r).map strong_type.construct)) (some r) = true) ∧
    (r.isFinite = true →
      skill_equal (read_back ((some r).map strong_type.construct)) (some r) = true) := by
  constructor
  · intro h
    show Fp.eq r r = true
    rw [Fp.eq_self_iff, h]; rfl
  · intro h
    exact (st_test_equality_self r).1 h

/-- Reading back a wrapped integer result and comparing it with the result
itself. -/
theorem read_back_mint {w : Nat} {sg : Bool} (o : Option (MInt w sg)) (h : o.isSome = true) :
    builtin_equal (read_back (o.map strong_type.construct)) o = true ∧
    skill_equal (read_back (o.map strong_type.construct)) o = true := by
  cases o with
  | none => cases h
  | some r =>
    constructor
    · show MInt.eq r r = true
      simp [MInt.eq]
    · show detail.st_test_equality r r = true
      rw [st_test_equality_mint]; simp [MInt.eq]

/-- C7, as stated, fails: the sum of positive and negative infinity is NaN, and
the value read back from `T{+inf} + T{-inf}` is not `==` to `+inf + -inf`,
neither under the built-in `==` nor under the equality of the skill; the sum of
the largest finite `double` with itself is infinite and not equal to itself
under the equality of the skill. -/
theorem value_form_result_not_equal :
    (d_inf.get.isNaN = false ∧ d_neg_inf.get.isNaN = false ∧
      builtin_equal (read_back (st_add.op_add d_inf d_neg_inf))
        (Arithmetic.add d_inf.get d_neg_inf.get) = false ∧
      skill_equal (read_back (st_add.op_add d_inf d_neg_inf))
        (Arithmetic.add d_inf.get d_neg_inf.get) = false) ∧
    (Fp.valid d_max.get ∧ d_max.get.isFinite = true ∧
      skill_equal (read_back (st_add.op_add d_max d_max))
        (Arithmetic.add d_max.get d_max.get) = false) := by
  decide!

/-- C7, amended. The value-form operators extract the raw values, apply the
built-in operator and wrap the result: the value read back from `T{x} op T{y}`
is the stored value `x op y` itself for `+`, `-`, `*`, `/`, and from `-T{x}` it
is `-x`, for every representation (the result is absent exactly when the
built-in operation is undefined).  For an integer representation this is the
exact integer result, the quotient being defined for a non-zero divisor, and
it compares equal to `x op y` whenever that is defined.  For a floating-point
representation the value read back compares equal to `x op y` under the
built-in `==` whenever the result is not NaN, and under the equality of the
skill whenever the result is finite. -/
theorem value_form_round_trip :
    (∀ (ty_t : Type) [Arithmetic ty_t] (x y : ty_t),
      (st_add.op_add (strong_type.construct x) (strong_type.construct y)).map strong_type.get
        = Arithmetic.add x y ∧
      (st_sub.op_sub (strong_type.construct x) (strong_type.construct y)).map strong_type.get
        = Arithmetic.sub x y ∧
      (st_mul_t.op_mul (strong_type.construct x) (strong_type.construct y)).map strong_type.get
        = Arithmetic.mul x y ∧
      (st_div_t.op_div (strong_type.construct x) (strong_type.construct y)).map strong_type.get
        = Arithmetic.div x y ∧
      (st_sub.op_neg (strong_type.construct x)).map strong_type.get = Arithmetic.neg x) ∧
    (∀ (w : Nat) (sg : Bool) (x y : MInt w sg),
      (st_add.op_add (strong_type.construct x) (strong_type.construct y)).map strong_type.get
        = MInt.deliver w sg (x.val + y.val) ∧
      (st_sub.op_sub (strong_type.construct x) (strong_type.construct y)).map strong_type.get
        = MInt.deliver w sg (x.val - y.val) ∧
      (st_mul_t.op_mul (strong_type.construct x) (strong_type.construct y)).map strong_type.get
        = MInt.deliver w sg (x.val * y.val) ∧
      (st_div_t.op_div (strong_type.construct x) (strong_type.construct y)).map strong_type.get
        = (if y.val = 0 then none else MInt.deliver w sg (Int.tdiv x.val y.val)) ∧
      (st_sub.op_neg (strong_type.construct x)).map strong_type.get
        = MInt.deliver w sg (-x.val)) ∧
    (∀ (fmt : Format) (x y : Fp fmt),
      ((Fp.add x y).isNaN = false →
        builtin_equal (read_back (st_add.op_add (strong_type.construct x)
          (strong_type.construct y))) (Arithmetic.add x y) = true) ∧
      ((Fp.add x y).isFinite = true →
        skill_equal (read_back (st_add.op_add (strong_type.construct x)
          (strong_type.construct y))) (Arithmetic.add x y) = true) ∧
      ((Fp.sub x y).isNaN = false →
        builtin_equal (read_back (st_sub.op_sub (strong_type.construct x)
          (strong_type.construct y))) (Arithmetic.sub x y) = true) ∧
      ((Fp.sub x y).isFinite = true →
        skill_equal (read_back (st_sub.op_sub (strong_type.construct x)
          (strong_type.construct y))) (Arithmetic.sub x y) = true) ∧
      ((Fp.mul x y).isNaN = false →
        builtin_equal (read_back (st_mul_t.op_mul (strong_type.construct x)
          (strong_type.construct y))) (Arithmetic.mul x y) = true) ∧
      ((Fp.mul x y).isFinite = true →
        skill_equal (read_back (st_mul_t.op_mul (strong_type.construct x)
          (strong_type.construct y))) (Arithmetic.mul x y) = true) ∧
      ((Fp.div x y).isNaN = false →
        builtin_equal (read_back (st_div_t.op_div (strong_type.construct x)
          (strong_type.construct y))) (Arithmetic.div x y) = true) ∧
      ((Fp.div x y).isFinite = true →
        skill_equal (read_back (st_div_t.op_div (strong_type.construct x)
          (strong_type.construct y))) (Arithmetic.div x y) = true) ∧
      ((Fp.neg x).isNaN = false →
        builtin_equal (read_back (st_sub.op_neg (strong_type.construct x)))
          (Arithmetic.neg x) = true) ∧
      ((Fp.neg x).isFinite = true →
        skill_equal (read_back (st_sub.op_neg (strong_type.construct x)))
          (Arithmetic.neg x) = true)) ∧
    (∀ (w : Nat) (sg : Bool) (x y : MInt w sg),
      ((MInt.add x y).isSome = true →
        builtin_equal (read_back (st_add.op_add (strong_type.construct x)
          (strong_type.construct y))) (Arithmetic.add x y) = true ∧
        skill_equal (read_back (st_add.op_add (strong_type.construct x)
          (strong_type.construct y))) (Arithmetic.add x y) = true) ∧
      ((MInt.sub x y).isSome = true →
        builtin_equal (read_back (st_sub.op_sub (strong_type.construct x)
          (strong_type.construct y))) (Arithmetic.sub x y) = true ∧
        skill_equal (read_back (st_sub.op_sub (strong_type.construct x)
          (strong_type.construct y))) (Arithmetic.sub x y) = true) ∧
      ((MInt.mul x y).isSome = true →
        builtin_equal (read_back (st_mul_t.op_mul (strong_type.construct x)
          (strong_type.construct y))) (Arithmetic.mul x y) = true ∧
        skill_equal (read_back (st_mul_t.op_mul (strong_type.construct x)
          (strong_type.construct y))) (Arithmetic.mul x y) = true) ∧
      ((MInt.div x y).isSome = true →
        builtin_equal (read_back (st_div_t.op_div (strong_type.construct x)
          (strong_type.construct y))) (Arithmetic.div x y) = true ∧
        skill_equal (read_back (st_div_t.op_div (strong_type.construct x)
          (strong_type.construct y))) (Arithmetic.div x y) = true) ∧
      ((MInt.neg x).isSome = true →
        builtin_equal (read_back (st_sub.op_neg (strong_type.construct x)))
          (Arithmetic.neg x) = true ∧
        skill_equal (read_back (st_sub.op_neg (strong_type.construct x)))
          (Arithmetic.neg x) = true)) := by
  have key : ∀ (ty_t : Type) (o : Option ty_t),
      (o.map strong_type.construct).map strong_type.get = o := by
    intro ty_t o
    cases o <;> rfl
  have gen : ∀ (ty_t : Type) [Arithmetic ty_t] (x y : ty_t),
      (st_add.op_add (strong_type.construct x) (strong_type.construct y)).map strong_type.get
        = Arithmetic.add x y ∧
      (st_sub.op_sub (strong_type.construct x) (strong_type.construct y)).map strong_type.get
        = Arithmetic.sub x y ∧
      (st_mul_t.op_mul (strong_type.construct x) (strong_type.construct y)).map strong_type.get
        = Arithmetic.mul x y ∧
      (st_div_t.op_div (strong_type.construct x) (strong_type.construct y)).map strong_type.get
        = Arithmetic.div x y ∧
      (st_sub.op_neg (strong_type.construct x)).map strong_type.get = Arithmetic.neg x :=
    fun ty_t _ x y => ⟨key _ _, key _ _, key _ _, key _ _, key _ _⟩
  refine ⟨gen, fun w sg x y => ?_, fun fmt x y => ?_, fun w sg x y => ?_⟩
  · obtain ⟨h1, h2, h3, h4, h5⟩ := gen (MInt w sg) x y
    exact ⟨h1, h2, h3, h4, h5⟩
  · exact ⟨(read_back_fp (Fp.add x y)).1, (read_back_fp (Fp.add x y)).2,
      (read_back_fp (Fp.sub x y)).1, (read_back_fp (Fp.sub x y)).2,
      (read_back_fp (Fp.mul x y)).1, (read_back_fp (Fp.mul x y)).2,
      (read_back_fp (Fp.div x y)).1, (read_back_fp (Fp.div x y)).2,
      (read_back_fp (Fp.neg x)).1, (read_back_fp (Fp.neg x)).2⟩
  · exact ⟨read_back_mint (MInt.add x y), read_back_mint (MInt.sub x y),
      read_back_mint (MInt.mul x y), read_back_mint (MInt.div x y),
      read_back_mint (MInt.neg x)⟩

/-- The amended C7 at the `double`s 1.0 + 1.0 and at the `int32_t`s 2 + 3. -/
theorem value_form_round_trip_witness :
    ((Fp.add d_one.get d_one.get).isNaN = false ∧
      (Fp.add d_one.get d_one.get).isFinite = true ∧
      builtin_equal (read_back (st_add.op_add d_one d_one))
        (Arithmetic.add d_one.get d_one.get) = true ∧
      skill_equal (read_back (st_add.op_add d_one d_one))
        (Arithmetic.add d_one.get d_one.get) = true) ∧
    ((MInt.add i_two i_three).isSome = true ∧
      builtin_equal (read_back (st_add.op_add (strong_type.construct i_two)
        (strong_type.construct i_three))) (Arithmetic.add i_two i_three) = true ∧
      skill_equal (read_back (st_add.op_add (strong_type.construct i_two)
        (strong_type.construct i_three))) (Arithmetic.add i_two i_three) = true) :=
  ⟨⟨(by decide!), (by decide!),
      (value_form_round_trip.2.2.1 binary64 d_one.get d_one.get).1 (by decide!),
      (value_form_round_trip.2.2.1 binary64 d_one.get d_one.get).2.1 (by decide!)⟩,
    ⟨(by decide), (value_form_round_trip.2.2.2 32 true i_two i_three).1 (by decide)⟩⟩


/-- C8. Compound assignment agrees with the value form.  `a op= b` is defined
exactly when `a op b` is; it then stores in `a` the value of `a op b` computed
from the operands as they were before the assignment, returns a reference to
`a`, and leaves every other object, so `b` when it is another object, as it
was.  This holds for `+=`, `-=`, `*=`, `/=` and for the scalar forms `a *= s`,
`a /= s`. -/
theorem compound_assignment_matches_value_form :
    (∀ (ty_t : Type) (σ : Store ty_t) (a l : Loc) (r : strong_type ty_t),
      (σ.assign a r) l = if l = a then r else σ l) ∧
    (∀ (ty_t : Type) [Arithmetic ty_t] (σ : Store ty_t) (a b : Loc),
      st_add.op_add_assign σ a b
        = (st_add.op_add (σ a) (σ b)).map (fun r => (σ.assign a r, a)) ∧
      st_sub.op_sub_assign σ a b
        = (st_sub.op_sub (σ a) (σ b)).map (fun r => (σ.assign a r, a)) ∧
      st_mul_t.op_mul_assign σ a b
        = (st_mul_t.op_mul (σ a) (σ b)).map (fun r => (σ.assign a r, a)) ∧
      st_div_t.op_div_assign σ a b
        = (st_div_t.op_div (σ a) (σ b)).map (fun r => (σ.assign a r, a))) ∧
    (∀ (ty_t S : Type) [Arithmetic ty_t] [rhs_type_f S] [ScalarOperand S ty_t]
        (σ : Store ty_t) (a : Loc) (s : S),
      st_mul_f.op_mul_assign σ a s
        = (st_mul_f.op_mul (σ a) s).map (fun r => (σ.assign a r, a)) ∧
      st_div_f.op_div_assign σ a s
        = (st_div_f.op_div (σ a) s).map (fun r => (σ.assign a r, a))) ∧
    (∀ (ty_t S : Type) [Arithmetic ty_t] [rhs_type_i S] [ScalarOperand S ty_t]
        (σ : Store ty_t) (a : Loc) (s : S),
      st_mul_i.op_mul_assign σ a s
        = (st_mul_i.op_mul (σ a) s).map (fun r => (σ.assign a r, a)) ∧
      st_div_i.op_div_assign σ a s
        = (st_div_i.op_div (σ a) s).map (fun r => (σ.assign a r, a))) := by
  have key : ∀ (ty_t : Type) (σ : Store ty_t) (a : Loc) (o : Option ty_t),
      o.map (fun tmp => (σ.assign a (strong_type.construct tmp), a))
        = (o.map strong_type.construct).map (fun r => (σ.assign a r, a)) := by
    intro ty_t σ a o
    cases o <;> rfl
  refine ⟨fun _ _ _ _ _ => rfl, ?_, ?_, ?_⟩
  · intro ty_t _ σ a b
    exact ⟨key _ _ _ _, key _ _ _ _, key _ _ _ _, key _ _ _ _⟩
  · intro ty_t S _ _ _ σ a s
    exact ⟨key _ _ _ _, key _ _ _ _⟩
  · intro ty_t S _ _ _ σ a s
    exact ⟨key _ _ _ _, key _ _ _ _⟩

/-- C9, as stated, fails: for the `double` `x = +inf` and the `double` scalar
`s = 0.0`, neither of which is NaN, both products are NaN and the values read
back from `T{x} * s` and `s * T{x}` are not `==`, to each other or to `x * s`,
under the built-in `==` or under the equality of the skill. -/
theorem scalar_multiply_nan_product :
    d_inf.get.isNaN = false ∧ (Fp.fin false 0 : double).isNaN = false ∧
    builtin_equal (read_back (st_mul_f.op_mul d_inf (Fp.fin false 0 : double)))
      (read_back (st_mul_f.op_mul_swapped (Fp.fin false 0 : double) d_inf)) = false ∧
    skill_equal (read_back (st_mul_f.op_mul d_inf (Fp.fin false 0 : double)))
      (read_back (st_mul_f.op_mul_swapped (Fp.fin false 0 : double) d_inf)) = false ∧
    builtin_equal (read_back (st_mul_f.op_mul d_inf (Fp.fin false 0 : double)))
      (some (Fp.mul d_inf.get (Fp.fin false 0))) = false ∧
    skill_equal (read_back (st_mul_f.op_mul d_inf (Fp.fin false 0 : double)))
      (some (Fp.mul d_inf.get (Fp.fin false 0))) = false := by
  decide!

/-- C9, amended. Scalar multiplication is symmetric in the stored value: for a
floating-point or integer representation `R` and every scalar type of
`st_mul_f` and `st_mul_i` whose common type with `R` is `R`, the values read
back from `T{x} * s` and from `s * T{x}` are the same stored value, the
built-in product `x * s`.  They compare equal under the built-in `==` whenever
the product is not NaN and under the equality of the skill whenever it is
finite; for an integer `R`, whenever the product is defined.  The scalar types
in question are all five for `double`; `float`, `int32_t`, `uint32_t`,
`int64_t` for `float`; `int32_t` for `int32_t`; `int32_t`, `uint32_t` for
`uint32_t`; the three integer types for `int64_t`. -/
theorem scalar_multiply_symmetric :
    (∀ (fmt : Format) (S : Type) [rhs_type_f S] [ScalarOperand S (Fp fmt)]
        (x : Fp fmt) (s : S),
      (st_mul_f.op_mul (strong_type.construct x) s).map strong_type.get
        = (st_mul_f.op_mul_swapped s (strong_type.construct x)).map strong_type.get ∧
      (st_mul_f.op_mul (strong_type.construct x) s).map strong_type.get
        = some (Fp.mul x (ScalarOperand.conv s))) ∧
    (∀ (fmt : Format) (S : Type) [rhs_type_i S] [ScalarOperand S (Fp fmt)]
        (x : Fp fmt) (s : S),
      (st_mul_i.op_mul (strong_type.construct x) s).map strong_type.get
        = (st_mul_i.op_mul_swapped s (strong_type.construct x)).map strong_type.get ∧
      (st_mul_i.op_mul (strong_type.construct x) s).map strong_type.get
        = some (Fp.mul x (ScalarOperand.conv s))) ∧
    (∀ (w : Nat) (sg : Bool) (S : Type) [rhs_type_i S] [ScalarOperand S (MInt w sg)]
        (x : MInt w sg) (s : S),
      (st_mul_i.op_mul (strong_type.construct x) s).map strong_type.get
        = (st_mul_i.op_mul_swapped s (strong_type.construct x)).map strong_type.get ∧
      (st_mul_i.op_mul (strong_type.construct x) s).map strong_type.get
        = MInt.mul x (ScalarOperand.conv s)) ∧
    (∀ (fmt : Format) (S : Type) [rhs_type_f S] [ScalarOperand S (Fp fmt)]
        (x : Fp fmt) (s : S),
      ((Fp.mul x (ScalarOperand.conv s)).isNaN = false →
        builtin_equal (read_back (st_mul_f.op_mul (strong_type.construct x) s))
          (read_back (st_mul_f.op_mul_swapped s (strong_type.construct x))) = true ∧
        builtin_equal (read_back (st_mul_f.op_mul (strong_type.construct x) s))
          (some (Fp.mul x (ScalarOperand.conv s))) = true) ∧
      ((Fp.mul x (ScalarOperand.conv s)).isFinite = true →
        skill_equal (read_back (st_mul_f.op_mul (strong_type.construct x) s))
          (read_back (st_mul_f.op_mul_swapped s (strong_type.construct x))) = true ∧
        skill_equal (read_back (st_mul_f.op_mul (strong_type.construct x) s))
          (some (Fp.mul x (ScalarOperand.conv s))) = true)) ∧
    (∀ (fmt : Format) (S : Type) [rhs_type_i S] [ScalarOperand S (Fp fmt)]
        (x : Fp fmt) (s : S),
      ((Fp.mul x (ScalarOperand.conv s)).isNaN = false →
        builtin_equal (read_back (st_mul_i.op_mul (strong_type.construct x) s))
          (read_back (st_mul_i.op_mul_swapped s (strong_type.construct x))) = true ∧
        builtin_equal (read_back (st_mul_i.op_mul (strong_type.construct x) s))
          (some (Fp.mul x (ScalarOperand.conv s))) = true) ∧
      ((Fp.mul x (ScalarOperand.conv s)).isFinite = true →
        skill_equal (read_back (st_mul_i.op_mul (strong_type.construct x) s))
          (read_back (st_mul_i.op_mul_swapped s (strong_type.construct x))) = true ∧
        skill_equal (read_back (st_mul_i.op_mul (strong_type.construct x) s))
          (some (Fp.mul x (ScalarOperand.conv s))) = true)) ∧
    (∀ (w : Nat) (sg : Bool) (S : Type) [rhs_type_i S] [ScalarOperand S (MInt w sg)]
        (x : MInt w sg) (s : S),
      (MInt.mul x (ScalarOperand.conv s)).isSome = true →
      builtin_equal (read_back (st_mul_i.op_mul (strong_type.construct x) s))
        (read_back (st_mul_i.op_mul_swapped s (strong_type.construct x))) = true ∧
      builtin_equal (read_back (st_mul_i.op_mul (strong_type.construct x) s))
        (MInt.mul x (ScalarOperand.conv s)) = true ∧
      skill_equal (read_back (st_mul_i.op_mul (strong_type.construct x) s))
        (read_back (st_mul_i.op_mul_swapped s (strong_type.construct x))) = true ∧
      skill_equal (read_back (st_mul_i.op_mul (strong_type.construct x) s))
        (MInt.mul x (ScalarOperand.conv s)) = true) ∧
    ((∀ (x : double) (s : float), read_back (st_mul_f.op_mul (strong_type.construct x) s)
        = some (Fp.mul x (Fp.convert binary64 s))) ∧
      (∀ (x : double) (s : double), read_back (st_mul_f.op_mul (strong_type.construct x) s)
        = some (Fp.mul x s)) ∧
      (∀ (x : double) (s : int32_t), read_back (st_mul_i.op_mul (strong_type.construct x) s)
        = some (Fp.mul x (Fp.ofInt binary64 s.val))) ∧
      (∀ (x : double) (s : uint32_t), read_back (st_mul_i.op_mul (strong_type.construct x) s)
        = some (Fp.mul x (Fp.ofInt binary64 s.val))) ∧
      (∀ (x : double) (s : int64_t), read_back (st_mul_i.op_mul (strong_type.construct x) s)
        = some (Fp.mul x (Fp.ofInt binary64 s.val)))) ∧
    ((∀ (x : float) (s : float), read_back (st_mul_f.op_mul (strong_type.construct x) s)
        = some (Fp.mul x s)) ∧
      (∀ (x : float) (s : int32_t), read_back (st_mul_i.op_mul (strong_type.construct x) s)
        = some (Fp.mul x (Fp.ofInt binary32 s.val))) ∧
      (∀ (x : float) (s : uint32_t), read_back (st_mul_i.op_mul (strong_type.construct x) s)
        = some (Fp.mul x (Fp.ofInt binary32 s.val))) ∧
      (∀ (x : float) (s : int64_t), read_back (st_mul_i.op_mul (strong_type.construct x) s)
        = some (Fp.mul x (Fp.ofInt binary32 s.val)))) ∧
    ((∀ (x : int32_t) (s : int32_t), read_back (st_mul_i.op_mul (strong_type.construct x) s)
        = MInt.mul x s) ∧
      (∀ (x : uint32_t) (s : int32_t), read_back (st_mul_i.op_mul (strong_type.construct x) s)
        = MInt.mul x ⟨s.val % 2 ^ 32⟩) ∧
      (∀ (x : uint32_t) (s : uint32_t), read_back (st_mul_i.op_mul (strong_type.construct x) s)
        = MInt.mul x s) ∧
      (∀ (x : int64_t) (s : int32_t), read_back (st_mul_i.op_mul (strong_type.construct x) s)
        = MInt.mul x ⟨s.val⟩) ∧
      (∀ (x : int64_t) (s : uint32_t), read_back (st_mul_i.op_mul (strong_type.construct x) s)
        = MInt.mul x ⟨s.val⟩) ∧
      (∀ (x : int64_t) (s : int64_t), read_back (st_mul_i.op_mul (strong_type.construct x) s)
        = MInt.mul x s)) := by
  have key : ∀ (ty_t : Type) (o : Option ty_t),
      (o.map strong_type.construct).map strong_type.get = o := by
    intro ty_t o
    cases o <;> rfl
  have fpf : ∀ (fmt : Format) (S : Type) [rhs_type_f S] [ScalarOperand S (Fp fmt)]
      (x : Fp fmt) (s : S),
      read_back (st_mul_f.op_mul_swapped s (strong_type.construct x))
        = read_back ((some (Fp.mul x (ScalarOperand.conv s))).map strong_type.construct) := by
    intro fmt S _ _ x s
    show read_back ((some (Fp.mul (ScalarOperand.conv s) x)).map strong_type.construct) = _
    rw [Fp.mul_comm_fp]
  have fpi : ∀ (fmt : Format) (S : Type) [rhs_type_i S] [ScalarOperand S (Fp fmt)]
      (x : Fp fmt) (s : S),
      read_back (st_mul_i.op_mul_swapped s (strong_type.construct x))
        = read_back ((some (Fp.mul x (ScalarOperand.conv s))).map strong_type.construct) := by
    intro fmt S _ _ x s
    show read_back ((some (Fp.mul (ScalarOperand.conv s) x)).map strong_type.construct) = _
    rw [Fp.mul_comm_fp]
  have mi : ∀ (w : Nat) (sg : Bool) (S : Type) [rhs_type_i S] [ScalarOperand S (MInt w sg)]
      (x : MInt w sg) (s : S),
      read_back (st_mul_i.op_mul_swapped s (strong_type.construct x))
        = read_back ((MInt.mul x (ScalarOperand.conv s)).map strong_type.construct) := by
    intro w sg S _ _ x s
    show read_back ((MInt.mul (ScalarOperand.conv s) x).map strong_type.construct) = _
    rw [MInt.mul_comm_mint]
  refine ⟨?_, ?_, ?_, ?_, ?_, ?_, ?_, ?_, ?_⟩
  · intro fmt S _ _ x s
    exact ⟨(fpf fmt S x s).symm, rfl⟩
  · intro fmt S _ _ x s
    exact ⟨(fpi fmt S x s).symm, rfl⟩
  · intro w sg S _ _ x s
    refine ⟨?_, key _ _⟩
    show (Option.map strong_type.construct (MInt.mul x (ScalarOperand.conv s))).map
        strong_type.get
      = (Option.map strong_type.construct (MInt.mul (ScalarOperand.conv s) x)).map
        strong_type.get
    rw [MInt.mul_comm_mint]
  · intro fmt S _ _ x s
    have h := read_back_fp (Fp.mul x (ScalarOperand.conv s))
    constructor
    · intro hn
      rw [fpf fmt S x s]
      exact ⟨h.1 hn, h.1 hn⟩
    · intro hf
      rw [fpf fmt S x s]
      exact ⟨h.2 hf, h.2 hf⟩
  · intro fmt S _ _ x s
    have h := read_back_fp (Fp.mul x (ScalarOperand.conv s))
    constructor
    · intro hn
      rw [fpi fmt S x s]
      exact ⟨h.1 hn, h.1 hn⟩
    · intro hf
      rw [fpi fmt S x s]
      exact ⟨h.2 hf, h.2 hf⟩
  · intro w sg S _ _ x s hs
    have h := read_back_mint (MInt.mul x (ScalarOperand.conv s)) hs
    have e : read_back ((MInt.mul x (ScalarOperand.conv s)).map strong_type.construct)
        = MInt.mul x (ScalarOperand.conv s) := key _ _
    have hL : read_back (st_mul_i.op_mul (strong_type.construct x) s)
        = read_back ((MInt.mul x (ScalarOperand.conv s)).map strong_type.construct) := rfl
    rw [mi w sg S x s, hL, e]
    rw [e] at h
    exact ⟨h.1, h.1, h.2, h.2⟩
  · exact ⟨fun _ _ => rfl, fun _ _ => rfl, fun _ _ => rfl, fun _ _ => rfl, fun _ _ => rfl⟩
  · exact ⟨fun _ _ => rfl, fun _ _ => rfl, fun _ _ => rfl, fun _ _ => rfl⟩
  · refine ⟨?_, ?_, ?_, ?_, ?_, ?_⟩ <;> intro x s <;> exact key _ (MInt.mul x _)

/-- The amended C9 at the `double` 1.0 times the `double` scalar 1.0 and at the
`int32_t` 2 times the `int32_t` scalar 3. -/
theorem scalar_multiply_symmetric_witness :
    ((Fp.mul d_one.get d_one.get).isNaN = false ∧
      (Fp.mul d_one.get d_one.get).isFinite = true ∧
      builtin_equal (read_back (st_mul_f.op_mul d_one d_one.get))
        (read_back (st_mul_f.op_mul_swapped d_one.get d_one)) = true ∧
      skill_equal (read_back (st_mul_f.op_mul d_one d_one.get))
        (read_back (st_mul_f.op_mul_swapped d_one.get d_one)) = true) ∧
    ((MInt.mul i_two i_three).isSome = true ∧
      builtin_equal (read_back (st_mul_i.op_mul (strong_type.construct i_two) i_three))
        (read_back (st_mul_i.op_mul_swapped i_three (strong_type.construct i_two))) = true) :=
  ⟨⟨(by decide!), (by decide!),
      ((scalar_multiply_symmetric.2.2.2.1 binary64 double d_one.get d_one.get).1
        (by decide!)).1,
      ((scalar_multiply_symmetric.2.2.2.1 binary64 double d_one.get d_one.get).2
        (by decide!)).1⟩,
    ⟨(by decide),
      (scalar_multiply_symmetric.2.2.2.2.2.1 32 true int32_t i_two i_three (by decide)).1⟩⟩

/-- C10, as stated, fails: `st_div_f` (and with it `st_math`) declares an
`operator/` taking the scalar on the left and the strong type on the right, and
`6.0 / T{2.0}` evaluates to `T{3.0}`. -/
theorem scalar_over_strong_type_is_defined :
    (⟨.slash, [.scalar .double, .strong]⟩ : op_decl) ∈ st_div_f.decls ∧
    (⟨.slash, [.scalar .double, .strong]⟩ : op_decl) ∈ st_math.decls ∧
    st_div_f.op_div_swapped (Fp.ofInt binary64 6 : double)
        (strong_type.construct (Fp.ofInt binary64 2 : double))
      = some (strong_type.construct (Fp.ofInt binary64 3)) := by
  decide!

/-- C10, amended. The divide-by-scalar skills define `T{x} / s`, which computes
`x / s`, and with the same macro `s / T{x}`, which computes `s / x`: the
`operator/` functions of `st_div_f` and `st_div_i` are the two orders for each
of their scalar types, and the composites `st_div` and `st_math` have both
orders for all five scalar types. -/
theorem scalar_divide_both_orders :
    (∀ (ty_t S : Type) [Arithmetic ty_t] [rhs_type_f S] [ScalarOperand S ty_t]
        (x : ty_t) (s : S),
      (st_div_f.op_div (strong_type.construct x) s).map strong_type.get
        = Arithmetic.div x (ScalarOperand.conv s) ∧
      (st_div_f.op_div_swapped s (strong_type.construct x)).map strong_type.get
        = Arithmetic.div (ScalarOperand.conv s) x) ∧
    (∀ (ty_t S : Type) [Arithmetic ty_t] [rhs_type_i S] [ScalarOperand S ty_t]
        (x : ty_t) (s : S),
      (st_div_i.op_div (strong_type.construct x) s).map strong_type.get
        = Arithmetic.div x (ScalarOperand.conv s) ∧
      (st_div_i.op_div_swapped s (strong_type.construct x)).map strong_type.get
        = Arithmetic.div (ScalarOperand.conv s) x) ∧
    st_div_f.decls.filter (fun d => d.symbol = .slash)
      = [⟨.slash, [.strong, .scalar .float]⟩, ⟨.slash, [.scalar .float, .strong]⟩,
         ⟨.slash, [.strong, .scalar .double]⟩, ⟨.slash, [.scalar .double, .strong]⟩] ∧
    st_div_i.decls.filter (fun d => d.symbol = .slash)
      = [⟨.slash, [.strong, .scalar .int32_t]⟩, ⟨.slash, [.scalar .int32_t, .strong]⟩,
         ⟨.slash, [.strong, .scalar .uint32_t]⟩, ⟨.slash, [.scalar .uint32_t, .strong]⟩,
         ⟨.slash, [.strong, .scalar .int64_t]⟩, ⟨.slash, [.scalar .int64_t, .strong]⟩] ∧
    (∀ k : scalar_name,
      (⟨.slash, [.strong, .scalar k]⟩ : op_decl) ∈ st_div.decls ∧
      (⟨.slash, [.scalar k, .strong]⟩ : op_decl) ∈ st_div.decls ∧
      (⟨.slash, [.strong, .scalar k]⟩ : op_decl) ∈ st_math.decls ∧
      (⟨.slash, [.scalar k, .strong]⟩ : op_decl) ∈ st_math.decls) := by
  have key : ∀ (ty_t : Type) (o : Option ty_t),
      (o.map strong_type.construct).map strong_type.get = o := by
    intro ty_t o
    cases o <;> rfl
  refine ⟨fun _ _ _ _ _ _ _ => ⟨key _ _, key _ _⟩, fun _ _ _ _ _ _ _ => ⟨key _ _, key _ _⟩,
    by decide, by decide, ?_⟩
  intro k
  cases k <;> decide

/-! ## The tolerance test on finite values -/

/-- Comparison of two delivered non-negative magnitudes. -/
theorem Fp.le_pack_pack {fmt : Format} (r t : Nat) :
    Fp.le (Fp.pack fmt false r) (Fp.pack fmt false t) = true ↔ (fmt.maxMag < t ∨ r ≤ t) := by
  unfold Fp.pack
  by_cases hr : r ≤ fmt.maxMag
  · by_cases ht : t ≤ fmt.maxMag
    · simp only [hr, ht, if_true, Fp.le, Fp.toInt_false, decide_eq_true_eq, Nat.cast_le]
      constructor
      · intro h; exact Or.inr h
      · intro h; omega
    · simp only [hr, ht, if_true, if_false, Fp.le]
      constructor
      · intro _; left; omega
      · intro _; rfl
  · by_cases ht : t ≤ fmt.maxMag
    · simp only [hr, ht, if_true, if_false, Fp.le]
      constructor
      · intro h; cases h
      · intro h; omega
    · simp only [hr, ht, if_false, Fp.le]
      constructor
      · intro _; left; omega
      · intro _; rfl

/-- The scaled epsilon of two finite values, as delivered. -/
theorem Fp.mul_epsilon_fin {fmt : Format} (m : Nat) :
    Fp.mul (Fp.epsilon fmt) (Fp.fin false m)
      = Fp.pack fmt false (rnd fmt.prec (fmt.epsMag * m) (2 ^ fmt.qexp)) := by
  simp [Fp.mul, Fp.epsilon]

/-- Two finite values compare equal exactly when the scaled epsilon overflows
or the rounded magnitude of their difference does not exceed it. -/
theorem st_test_equality_fin_char {fmt : Format} (s1 s2 : Bool) (m1 m2 : Nat) :
    detail.st_test_equality (Fp.fin s1 m1 : Fp fmt) (Fp.fin s2 m2) = true ↔
      (fmt.maxMag < fmt.scaledEps m1 m2 ∨
        rnd fmt.prec (Fp.toInt s1 m1 - Fp.toInt s2 m2).natAbs 1 ≤ fmt.scaledEps m1 m2) := by
  rw [st_test_equality_fp, Fp.fmax_fabs_fin, Fp.mul_epsilon_fin]
  unfold Format.scaledEps
  simp only [Fp.sub]
  by_cases h0 : Fp.toInt s1 m1 - Fp.toInt s2 m2 = 0
  · rw [if_pos h0, h0]
    have e : (Fp.fin (s1 && !s2) 0 : Fp fmt).fabs = Fp.pack fmt false 0 := by
      simp [Fp.fabs, Fp.pack]
    rw [e, Fp.le_pack_pack]
    simp [rnd_zero]
  · rw [if_neg h0, Fp.fabs_pack, Fp.le_pack_pack]

/-- The scaled epsilon grows with the larger magnitude. -/
theorem Format.scaledEps_mono (fmt : Format) (hp : 1 ≤ fmt.prec) {m1 m2 n1 n2 : Nat}
    (h : max m1 m2 ≤ max n1 n2) : fmt.scaledEps m1 m2 ≤ fmt.scaledEps n1 n2 := by
  unfold Format.scaledEps
  exact rnd_mono fmt.prec _ hp (by positivity) (Nat.mul_le_mul_left _ h)


/-! ## The ordering on finite values -/

/-- `operator<` on two finite values: the raw values are ordered, the scaled
epsilon is finite and the rounded difference exceeds it. -/
theorem op_lt_fin_iff {fmt : Format} (s1 s2 : Bool) (m1 m2 : Nat) :
    st_cmp.op_lt (⟨Fp.fin s1 m1⟩ : strong_type (Fp fmt)) ⟨Fp.fin s2 m2⟩ = true ↔
      (Fp.toInt s1 m1 < Fp.toInt s2 m2 ∧ fmt.scaledEps m1 m2 ≤ fmt.maxMag ∧
        fmt.scaledEps m1 m2 < rnd fmt.prec (Fp.toInt s1 m1 - Fp.toInt s2 m2).natAbs 1) := by
  rw [op_lt_eq]
  have hc := @st_test_equality_fin_char fmt s1 s2 m1 m2
  show (decide (Fp.toInt s1 m1 < Fp.toInt s2 m2) &&
      !(detail.st_test_equality (Fp.fin s1 m1 : Fp fmt) (Fp.fin s2 m2))) = true ↔ _
  rw [Bool.and_eq_true, decide_eq_true_eq, Bool.not_eq_true', ← Bool.not_eq_true, hc]
  constructor
  · rintro ⟨h1, h2⟩
    refine ⟨h1, ?_, ?_⟩
    · by_contra hcon; exact h2 (Or.inl (by omega))
    · by_contra hcon; exact h2 (Or.inr (by omega))
  · rintro ⟨h1, h2, h3⟩
    refine ⟨h1, ?_⟩
    rintro (h | h) <;> omega

/-- `operator<` is transitive on finite floating-point values. -/
theorem op_lt_fin_trans {fmt : Format} (hp : 1 ≤ fmt.prec) (s1 s2 s3 : Bool) (m1 m2 m3 : Nat)
    (h12 : st_cmp.op_lt (⟨Fp.fin s1 m1⟩ : strong_type (Fp fmt)) ⟨Fp.fin s2 m2⟩ = true)
    (h23 : st_cmp.op_lt (⟨Fp.fin s2 m2⟩ : strong_type (Fp fmt)) ⟨Fp.fin s3 m3⟩ = true) :
    st_cmp.op_lt (⟨Fp.fin s1 m1⟩ : strong_type (Fp fmt)) ⟨Fp.fin s3 m3⟩ = true := by
  rw [op_lt_fin_iff] at h12 h23 ⊢
  obtain ⟨a1, a2, a3⟩ := h12
  obtain ⟨b1, b2, b3⟩ := h23
  have hd12 : (Fp.toInt s1 m1 - Fp.toInt s2 m2).natAbs ≤ (Fp.toInt s1 m1 - Fp.toInt s3 m3).natAbs := by
    omega
  have hd23 : (Fp.toInt s2 m2 - Fp.toInt s3 m3).natAbs ≤ (Fp.toInt s1 m1 - Fp.toInt s3 m3).natAbs := by
    omega
  have r12 := rnd_mono fmt.prec 1 hp (by norm_num) hd12
  have r23 := rnd_mono fmt.prec 1 hp (by norm_num) hd23
  refine ⟨by omega, ?_⟩
  rcases Nat.le_total m3 m1 with h | h
  · have hm : max m1 m3 ≤ max m1 m2 := by
      rw [Nat.max_eq_left h]; exact Nat.le_max_left _ _
    have ht := fmt.scaledEps_mono hp hm
    constructor <;> omega
  · have hm : max m1 m3 ≤ max m2 m3 := by
      rw [Nat.max_eq_right h]; exact Nat.le_max_right _ _
    have ht := fmt.scaledEps_mono hp hm
    constructor <;> omega

/-- `operator<` on integer values is the order of the stored values. -/
theorem op_lt_mint_iff {w : Nat} {sg : Bool} (a b : strong_type (MInt w sg)) :
    st_cmp.op_lt a b = true ↔ a.get.val < b.get.val := by
  obtain ⟨⟨x⟩⟩ := a
  obtain ⟨⟨y⟩⟩ := b
  rw [op_lt_eq]
  show (decide (x < y) && !decide (x = y)) = true ↔ x < y
  rw [Bool.and_eq_true, decide_eq_true_eq, Bool.not_eq_true', decide_eq_false_iff_not]
  constructor
  · intro h; exact h.1
  · intro h; exact ⟨h, by omega⟩


/-- On finite floating-point values `a <= b` and `a >= b` hold together exactly
when `a == b`. -/
theorem op_le_ge_fin_iff {fmt : Format} (s1 s2 : Bool) (m1 m2 : Nat) :
    (st_cmp.op_le (⟨Fp.fin s1 m1⟩ : strong_type (Fp fmt)) ⟨Fp.fin s2 m2⟩ = true ∧
      st_cmp.op_ge (⟨Fp.fin s1 m1⟩ : strong_type (Fp fmt)) ⟨Fp.fin s2 m2⟩ = true) ↔
    st_eq.op_eq (⟨Fp.fin s1 m1⟩ : strong_type (Fp fmt)) ⟨Fp.fin s2 m2⟩ = true := by
  have hc := op_eq_fp_comm (⟨Fp.fin s2 m2⟩ : strong_type (Fp fmt)) ⟨Fp.fin s1 m1⟩
  unfold st_cmp.op_le st_cmp.op_ge
  rw [op_lt_eq, op_lt_eq, hc]
  by_cases he : st_eq.op_eq (⟨Fp.fin s1 m1⟩ : strong_type (Fp fmt)) ⟨Fp.fin s2 m2⟩ = true
  · simp [he]
  · have hne : Fp.toInt s1 m1 ≠ Fp.toInt s2 m2 := fun e =>
      he (st_test_equality_fin_of_toInt_eq s1 s2 m1 m2 e)
    have he' : st_eq.op_eq (⟨Fp.fin s1 m1⟩ : strong_type (Fp fmt)) ⟨Fp.fin s2 m2⟩ = false := by
      simpa using he
    rw [he']
    show ((!(decide (Fp.toInt s2 m2 < Fp.toInt s1 m1) && !false)) = true ∧
      (!(decide (Fp.toInt s1 m1 < Fp.toInt s2 m2) && !false)) = true) ↔ false = true
    constructor
    · rintro ⟨h1, h2⟩
      simp at h1 h2
      omega
    · intro h; cases h

/-- On integer values `a <= b` and `a >= b` hold together exactly when `a == b`. -/
theorem op_le_ge_mint_iff {w : Nat} {sg : Bool} (a b : strong_type (MInt w sg)) :
    (st_cmp.op_le a b = true ∧ st_cmp.op_ge a b = true) ↔ st_eq.op_eq a b = true := by
  have h1 := op_lt_mint_iff a b
  have h2 := op_lt_mint_iff b a
  rw [op_eq_mint_iff]
  unfold st_cmp.op_le st_cmp.op_ge
  obtain ⟨⟨x⟩⟩ := a
  obtain ⟨⟨y⟩⟩ := b
  simp only [Bool.not_eq_true', ← Bool.not_eq_true, h1, h2, strong_type.get]
  constructor
  · rintro ⟨p, q⟩
    have : x = y := by omega
    rw [this]
  · intro h
    have : x = y := by injection h
    omega

/-! ## Size of the scaled epsilon -/

/-- Rounding to the nearest integer at most doubles. -/
theorem rne_mul_le (n d : Nat) : rne n d * d ≤ 2 * n := by
  have h := Nat.div_add_mod n d
  unfold rne
  simp only
  generalize n / d = q at h ⊢
  generalize n % d = r at h ⊢
  have e1 : q * d = d * q := Nat.mul_comm _ _
  have e2 : (q + 1) * d = d * q + d := by ring
  split
  · rw [e1]; omega
  · split
    · rw [e2]; omega
    · split
      · rw [e1]; omega
      · rw [e2]; omega

/-- Rounding to `p` bits at most doubles. -/
theorem rnd_mul_le (p n d : Nat) : rnd p n d * d ≤ 2 * n := by
  unfold rnd
  simp only
  generalize bitlen (n / d) - p = g
  have h := rne_mul_le n (d * 2 ^ g)
  calc rne n (d * 2 ^ g) * 2 ^ g * d = rne n (d * 2 ^ g) * (d * 2 ^ g) := by ring
    _ ≤ 2 * n := h

/-- With at least three significand bits the scaled epsilon is at most half of
the larger magnitude. -/
theorem Format.two_mul_scaledEps_le (fmt : Format) (hp : 3 ≤ fmt.prec) (he : 1 ≤ fmt.emax)
    (m1 m2 : Nat) : 2 * fmt.scaledEps m1 m2 ≤ max m1 m2 := by
  have h := rnd_mul_le fmt.prec (fmt.epsMag * max m1 m2) (2 ^ fmt.qexp)
  have hq : 2 ^ fmt.qexp = fmt.epsMag * 2 ^ (fmt.prec - 1) := by
    unfold Format.epsMag Format.qexp
    rw [← pow_add]; congr 1; omega
  have h4 : 2 ^ (fmt.prec - 1) = 4 * 2 ^ (fmt.prec - 3) := by
    have : fmt.prec - 1 = (fmt.prec - 3) + 2 := by omega
    rw [this, pow_add]; ring
  unfold Format.scaledEps
  set T := rnd fmt.prec (fmt.epsMag * max m1 m2) (2 ^ fmt.qexp) with hT
  rw [hq, h4] at h
  have hpos : 0 < fmt.epsMag := Nat.pos_of_ne_zero fmt.epsMag_ne_zero
  have h5 : fmt.epsMag * (2 * T) ≤ fmt.epsMag * max m1 m2 := by
    have h6 : T * (fmt.epsMag * (4 * 1)) ≤ T * (fmt.epsMag * (4 * 2 ^ (fmt.prec - 3))) := by
      apply Nat.mul_le_mul_left
      apply Nat.mul_le_mul_left
      apply Nat.mul_le_mul_left
      exact Nat.one_le_two_pow
    have h7 : fmt.epsMag * (2 * T) * 2 = T * (fmt.epsMag * (4 * 1)) := by ring
    have h8 : 2 * (fmt.epsMag * max m1 m2) = fmt.epsMag * max m1 m2 * 2 := by ring
    have h9 : fmt.epsMag * (2 * T) * 2 ≤ fmt.epsMag * max m1 m2 * 2 := by
      rw [h7, ← h8]; exact le_trans h6 h
    exact Nat.le_of_mul_le_mul_right h9 (by norm_num)
  exact Nat.le_of_mul_le_mul_left h5 hpos

/-- Zero compares equal to a representable finite value only when that value
is zero. -/
theorem op_eq_zero_fin_iff {fmt : Format} (hp : 3 ≤ fmt.prec) (he : 1 ≤ fmt.emax)
    (s0 s : Bool) (m : Nat) (hm : Fp.representable fmt m) :
    st_eq.op_eq (⟨Fp.fin s0 0⟩ : strong_type (Fp fmt)) ⟨Fp.fin s m⟩ = true ↔ m = 0 := by
  show detail.st_test_equality (Fp.fin s0 0 : Fp fmt) (Fp.fin s m) = true ↔ m = 0
  rw [st_test_equality_fin_char]
  have hT := fmt.two_mul_scaledEps_le hp he 0 m
  rw [Nat.max_eq_right (Nat.zero_le m)] at hT
  have hD : (Fp.toInt s0 0 - Fp.toInt s m).natAbs = m := by
    have := Fp.natAbs_toInt s m
    have h0 : Fp.toInt s0 0 = 0 := by cases s0 <;> simp [Fp.toInt]
    rw [h0]; omega
  rw [hD, rnd_of_fits _ _ hm.1]
  have hmax := hm.2
  constructor
  · rintro (h | h) <;> omega
  · intro h
    subst h
    right
    exact Nat.zero_le _


/-! ## The boundary of the tolerance -/

/-- Built-in `==` implies built-in `<=`. -/
theorem Fp.le_of_eq_true {fmt : Format} (d t : Fp fmt) (h : Fp.eq d t = true) :
    Fp.le d t = true := by
  cases d with
  | nan => simp [Fp.eq] at h
  | inf s1 =>
    cases t with
    | nan => simp [Fp.eq] at h
    | inf s2 => cases s1 <;> cases s2 <;> simp_all [Fp.eq, Fp.le]
    | fin s2 m2 => simp [Fp.eq] at h
  | fin s1 m1 =>
    cases t with
    | nan => simp [Fp.eq] at h
    | inf s2 => simp [Fp.eq] at h
    | fin s2 m2 =>
      simp only [Fp.eq, decide_eq_true_eq] at h
      simp only [Fp.le, decide_eq_true_eq]
      omega

/-- Built-in `t < d` excludes built-in `d <= t`. -/
theorem Fp.le_false_of_lt {fmt : Format} (d t : Fp fmt) (h : Fp.lt t d = true) :
    Fp.le d t = false := by
  cases d with
  | nan => cases t <;> simp [Fp.lt] at h
  | inf s1 =>
    cases t with
    | nan => simp [Fp.lt] at h
    | inf s2 => cases s1 <;> cases s2 <;> simp_all [Fp.lt, Fp.le]
    | fin s2 m2 => cases s1 <;> simp_all [Fp.lt, Fp.le]
  | fin s1 m1 =>
    cases t with
    | nan => simp [Fp.lt] at h
    | inf s2 => cases s2 <;> simp_all [Fp.lt, Fp.le]
    | fin s2 m2 =>
      simp only [Fp.lt, decide_eq_true_eq] at h
      simp only [Fp.le, decide_eq_false_iff_not]
      omega

/-- The distance of two finite values, in quanta. -/
theorem Fp.abs_toRat_sub {fmt : Format} (s1 s2 : Bool) (m1 m2 : Nat) :
    |(Fp.fin s1 m1 : Fp fmt).toRat - (Fp.fin s2 m2 : Fp fmt).toRat|
      = ((Fp.toInt s1 m1 - Fp.toInt s2 m2).natAbs : ℚ) / 2 ^ fmt.qexp := by
  unfold Fp.toRat
  have hQ : (0 : ℚ) < 2 ^ fmt.qexp := by positivity
  rw [← sub_div, abs_div, abs_of_pos hQ, Nat.cast_natAbs]
  push_cast
  rfl

/-- The exact scaled epsilon of two finite values, in quanta. -/
theorem Fp.eps_mul_max_toRat {fmt : Format} (s1 s2 : Bool) (m1 m2 : Nat) :
    fmt.eps * max |(Fp.fin s1 m1 : Fp fmt).toRat| |(Fp.fin s2 m2 : Fp fmt).toRat|
      = (2 * ((max m1 m2 : Nat) : ℚ) / 2 ^ fmt.prec) / 2 ^ fmt.qexp := by
  unfold Fp.toRat Format.eps
  have hQ : (0 : ℚ) < 2 ^ fmt.qexp := by positivity
  have habs : ∀ (s : Bool) (m : Nat), |((Fp.toInt s m : Int) : ℚ)| = (m : ℚ) := by
    intro s m
    cases s <;> simp [Fp.toInt]
  have hr : max |((Fp.toInt s1 m1 : Int) : ℚ) / 2 ^ fmt.qexp|
      |((Fp.toInt s2 m2 : Int) : ℚ) / 2 ^ fmt.qexp| = ((max m1 m2 : Nat) : ℚ) / 2 ^ fmt.qexp := by
    rw [abs_div, abs_div, abs_of_pos hQ, habs, habs]
    rcases Nat.le_total m1 m2 with h | h
    · rw [Nat.max_eq_right h, max_eq_right]
      exact div_le_div_of_nonneg_right (by exact_mod_cast h) hQ.le
    · rw [Nat.max_eq_left h, max_eq_left]
      exact div_le_div_of_nonneg_right (by exact_mod_cast h) hQ.le
  rw [hr]
  field_simp

/-- Two finite values at exactly the scaled epsilon from each other, cleared of
denominators. -/
theorem spec_boundary_iff {fmt : Format} (s1 s2 : Bool) (m1 m2 : Nat) :
    |(Fp.fin s1 m1 : Fp fmt).toRat - (Fp.fin s2 m2 : Fp fmt).toRat|
      = fmt.eps * max |(Fp.fin s1 m1 : Fp fmt).toRat| |(Fp.fin s2 m2 : Fp fmt).toRat| ↔
    (Fp.toInt s1 m1 - Fp.toInt s2 m2).natAbs * 2 ^ fmt.prec = 2 * max m1 m2 := by
  rw [Fp.abs_toRat_sub, Fp.eps_mul_max_toRat]
  have hQ : (0 : ℚ) < 2 ^ fmt.qexp := by positivity
  have hP : (0 : ℚ) < 2 ^ fmt.prec := by positivity
  rw [div_left_inj' hQ.ne', eq_div_iff hP.ne']
  constructor
  · intro h; exact_mod_cast h
  · intro h; exact_mod_cast h

/-- Two representable values whose distance is exactly the scaled epsilon
compare equal. -/
theorem st_test_equality_at_boundary {fmt : Format} (hp : 3 ≤ fmt.prec) (he : 1 ≤ fmt.emax)
    (s1 s2 : Bool) (m1 m2 : Nat)
    (h1 : Fp.representable fmt m1) (h2 : Fp.representable fmt m2)
    (hb : |(Fp.fin s1 m1 : Fp fmt).toRat - (Fp.fin s2 m2 : Fp fmt).toRat|
      = fmt.eps * max |(Fp.fin s1 m1 : Fp fmt).toRat| |(Fp.fin s2 m2 : Fp fmt).toRat|) :
    detail.st_test_equality (Fp.fin s1 m1 : Fp fmt) (Fp.fin s2 m2) = true := by
  have hx : 2 ^ (fmt.prec - 1) ∣ max m1 m2 := by
    have h := (spec_boundary_iff s1 s2 m1 m2).mp hb
    have hpw : 2 ^ fmt.prec = 2 * 2 ^ (fmt.prec - 1) := by
      rw [← pow_succ']; congr 1; omega
    rw [hpw] at h
    refine ⟨(Fp.toInt s1 m1 - Fp.toInt s2 m2).natAbs, ?_⟩
    have h' : 2 * ((Fp.toInt s1 m1 - Fp.toInt s2 m2).natAbs * 2 ^ (fmt.prec - 1)) = 2 * max m1 m2 := by
      rw [← h]; ring
    have := Nat.eq_of_mul_eq_mul_left (by norm_num : 0 < 2) h'
    rw [← this]; ring
  rw [st_test_equality_exact hp he s1 s2 m1 m2 h1 h2 hx]
  unfold spec_scaled_epsilon
  exact le_of_eq hb

/-- Two representable values further apart than a scaled epsilon that is a
whole number of quanta compare unequal. -/
theorem st_test_equality_beyond_boundary {fmt : Format} (hp : 3 ≤ fmt.prec) (he : 1 ≤ fmt.emax)
    (s1 s2 : Bool) (m1 m2 : Nat)
    (h1 : Fp.representable fmt m1) (h2 : Fp.representable fmt m2)
    (hx : 2 ^ (fmt.prec - 1) ∣ max m1 m2)
    (hb : fmt.eps * max |(Fp.fin s1 m1 : Fp fmt).toRat| |(Fp.fin s2 m2 : Fp fmt).toRat|
      < |(Fp.fin s1 m1 : Fp fmt).toRat - (Fp.fin s2 m2 : Fp fmt).toRat|) :
    detail.st_test_equality (Fp.fin s1 m1 : Fp fmt) (Fp.fin s2 m2) = false := by
  have h := st_test_equality_exact hp he s1 s2 m1 m2 h1 h2 hx
  unfold spec_scaled_epsilon at h
  by_contra hc
  have ht : detail.st_test_equality (Fp.fin s1 m1 : Fp fmt) (Fp.fin s2 m2) = true := by
    simpa using hc
  have := h.mp ht
  exact absurd hb (not_lt.mpr this)


/-! ## The claims on construction, boundary values and ordering -/

/-- C11, as stated, fails: a NaN read back from a constructed value is not equal
to itself under the equality of the skill, and neither is an infinity. -/
theorem round_trip_not_equal_for_nan :
    detail.st_test_equality (strong_type.construct (Fp.nan : double)).get Fp.nan = false ∧
    detail.st_test_equality (strong_type.construct_move (Fp.nan : double)).get Fp.nan = false ∧
    detail.st_test_equality (strong_type.construct (Fp.inf false : double)).get (Fp.inf false)
      = false := by
  decide!

/-- C11, amended. Constructing from `v`, in the copy or the move form, and
reading back with `get()` yields `v` itself, for every representation; the
value read back is equal to `v` under the equality of the skill for every
finite floating-point `v` and every integer `v`. -/
theorem construction_round_trip :
    (∀ (ty_t : Type) (v : ty_t),
      (strong_type.construct v).get = v ∧ (strong_type.construct_move v).get = v) ∧
    (∀ (fmt : Format) (s : Bool) (m : Nat),
      detail.st_test_equality (strong_type.construct (Fp.fin s m : Fp fmt)).get (Fp.fin s m)
        = true ∧
      detail.st_test_equality (strong_type.construct_move (Fp.fin s m : Fp fmt)).get (Fp.fin s m)
        = true) ∧
    (∀ (w : Nat) (sg : Bool) (v : MInt w sg),
      detail.st_test_equality (strong_type.construct v).get v = true ∧
      detail.st_test_equality (strong_type.construct_move v).get v = true) := by
  refine ⟨fun _ _ => ⟨rfl, rfl⟩, fun fmt s m => ?_, fun w sg v => ?_⟩
  · exact ⟨st_test_equality_fin_of_toInt_eq s s m m rfl,
      st_test_equality_fin_of_toInt_eq s s m m rfl⟩
  · have h : detail.st_test_equality v v = true := by
      rw [st_test_equality_mint]; simp [MInt.eq]
    exact ⟨h, h⟩

/-- C12. At the boundary of the scaled epsilon: 1.0 and 1.0 + eps/2 compare
equal, 1.0 and 1.0 + eps*10 compare unequal.  In the arithmetic of the
representation, a difference equal to the scaled epsilon gives equality and a
larger one inequality, for all values.  In exact arithmetic, two representable
values whose distance is exactly `eps * max(|a|, |b|)` are equal, and two whose
distance is larger are unequal whenever that product is a whole number of
quanta. -/
theorem scaled_epsilon_boundary :
    (st_eq.op_eq d_one d_one_plus_half_eps = true ∧
      st_eq.op_eq d_one d_one_plus_ten_eps = false) ∧
    (∀ (fmt : Format) (a b : strong_type (Fp fmt)),
      (Fp.eq (Fp.fabs (Fp.sub a.get b.get))
          (Fp.mul (Fp.epsilon fmt) (Fp.fmax (Fp.fabs a.get) (Fp.fabs b.get))) = true →
        st_eq.op_eq a b = true) ∧
      (Fp.lt (Fp.mul (Fp.epsilon fmt) (Fp.fmax (Fp.fabs a.get) (Fp.fabs b.get)))
          (Fp.fabs (Fp.sub a.get b.get)) = true →
        st_eq.op_eq a b = false)) ∧
    (∀ (fmt : Format) (s1 s2 : Bool) (m1 m2 : Nat),
      3 ≤ fmt.prec → 1 ≤ fmt.emax →
      Fp.representable fmt m1 → Fp.representable fmt m2 →
      (|(Fp.fin s1 m1 : Fp fmt).toRat - (Fp.fin s2 m2 : Fp fmt).toRat|
          = fmt.eps * max |(Fp.fin s1 m1 : Fp fmt).toRat| |(Fp.fin s2 m2 : Fp fmt).toRat| →
        st_eq.op_eq (⟨Fp.fin s1 m1⟩ : strong_type (Fp fmt)) ⟨Fp.fin s2 m2⟩ = true) ∧
      (2 ^ (fmt.prec - 1) ∣ max m1 m2 →
        fmt.eps * max |(Fp.fin s1 m1 : Fp fmt).toRat| |(Fp.fin s2 m2 : Fp fmt).toRat|
          < |(Fp.fin s1 m1 : Fp fmt).toRat - (Fp.fin s2 m2 : Fp fmt).toRat| →
        st_eq.op_eq (⟨Fp.fin s1 m1⟩ : strong_type (Fp fmt)) ⟨Fp.fin s2 m2⟩ = false)) := by
  refine ⟨by decide!, fun fmt a b => ⟨fun h => ?_, fun h => ?_⟩,
    fun fmt s1 s2 m1 m2 hp he h1 h2 => ⟨fun hb => ?_, fun hx hb => ?_⟩⟩
  · exact Fp.le_of_eq_true _ _ h
  · exact Fp.le_false_of_lt _ _ h
  · exact st_test_equality_at_boundary hp he s1 s2 m1 m2 h1 h2 hb
  · exact st_test_equality_beyond_boundary hp he s1 s2 m1 m2 h1 h2 hx hb

/-- C12 at `double` values: 1.0 - epsilon and 1.0 lie exactly the scaled epsilon
apart and compare equal; 1.0 and 1.0 + 10 * epsilon lie further apart and
compare unequal. -/
theorem scaled_epsilon_boundary_witness :
    (|d_one_prev.get.toRat - d_one.get.toRat|
        = binary64.eps * max |d_one_prev.get.toRat| |d_one.get.toRat| ∧
      st_eq.op_eq d_one_prev d_one = true) ∧
    (binary64.eps * max |d_one.get.toRat| |d_one_plus_ten_eps.get.toRat|
        < |d_one.get.toRat - d_one_plus_ten_eps.get.toRat| ∧
      st_eq.op_eq d_one
        (⟨Fp.fin false (binary64.oneMag + 10 * binary64.epsMag)⟩ : strong_type double) = false) :=
  have hb1 : |(Fp.fin false (binary64.oneMag - binary64.epsMag) : Fp binary64).toRat
        - (Fp.fin false binary64.oneMag : Fp binary64).toRat|
      = binary64.eps * max |(Fp.fin false (binary64.oneMag - binary64.epsMag) : Fp binary64).toRat|
        |(Fp.fin false binary64.oneMag : Fp binary64).toRat| :=
    (spec_boundary_iff false false _ _).mpr (by decide!)
  have hb2 : binary64.eps * max |(Fp.fin false binary64.oneMag : Fp binary64).toRat|
        |(Fp.fin false (binary64.oneMag + 10 * binary64.epsMag) : Fp binary64).toRat|
      < |(Fp.fin false binary64.oneMag : Fp binary64).toRat
        - (Fp.fin false (binary64.oneMag + 10 * binary64.epsMag) : Fp binary64).toRat| :=
    not_le.mp (fun h => absurd ((spec_scaled_epsilon_iff false false _ _).mp h) (by decide!))
  have e : d_one_plus_ten_eps.get
      = (Fp.fin false (binary64.oneMag + 10 * binary64.epsMag) : Fp binary64) := by decide!
  ⟨⟨hb1, (scaled_epsilon_boundary.2.2 binary64 false false _ _ (by decide) (by decide)
      (by decide!) (by decide!)).1 hb1⟩,
    ⟨(by rw [e]; exact hb2), (scaled_epsilon_boundary.2.2 binary64 false false _ _ (by decide)
      (by decide) (by decide!) (by decide!)).2 (by decide!) hb2⟩⟩


/-- C13. A value holding NaN compares unequal to every value, itself included:
whenever `a` or `b` holds NaN, `a == b` is false and `a != b` is true.  With
NaN on one side only, `fmax` returns the other absolute value and the test
fails on the NaN difference. -/
theorem nan_compares_unequal (fmt : Format) (a b : strong_type (Fp fmt))
    (h : a.get.isNaN = true ∨ b.get.isNaN = true) :
    st_eq.op_eq a b = false ∧ st_eq.op_ne a b = true ∧
    (a.get.isNaN = true → Fp.fmax (Fp.fabs a.get) (Fp.fabs b.get) = Fp.fabs b.get) ∧
    (a.get.isNaN = true ∨ b.get.isNaN = true → Fp.fabs (Fp.sub a.get b.get) = Fp.nan) := by
  have h1 := (all_false_of_nan a b h).2.1
  refine ⟨h1, ?_, ?_, ?_⟩
  · show (!(st_eq.op_eq a b)) = true
    rw [h1]; rfl
  · intro ha
    obtain ⟨x⟩ := a
    cases x with
    | nan => cases b.get <;> rfl
    | inf s => simp [strong_type.get, Fp.isNaN] at ha
    | fin s m => simp [strong_type.get, Fp.isNaN] at ha
  · intro hab
    obtain ⟨x⟩ := a
    obtain ⟨y⟩ := b
    rcases hab with hx | hy
    · cases x with
      | nan => cases y <;> rfl
      | inf s => simp [strong_type.get, Fp.isNaN] at hx
      | fin s m => simp [strong_type.get, Fp.isNaN] at hx
    · cases y with
      | nan => cases x <;> rfl
      | inf s => simp [strong_type.get, Fp.isNaN] at hy
      | fin s m => simp [strong_type.get, Fp.isNaN] at hy

/-- C13 at the `double`s NaN and 1.0, where only one operand is NaN. -/
theorem nan_compares_unequal_witness :
    (d_nan.get.isNaN = true ∨ d_one.get.isNaN = true) ∧ d_one.get.isNaN = false ∧
    (st_eq.op_eq d_nan d_one = false ∧ st_eq.op_ne d_nan d_one = true ∧
      (d_nan.get.isNaN = true →
        Fp.fmax (Fp.fabs d_nan.get) (Fp.fabs d_one.get) = Fp.fabs d_one.get) ∧
      (d_nan.get.isNaN = true ∨ d_one.get.isNaN = true →
        Fp.fabs (Fp.sub d_nan.get d_one.get) = Fp.nan)) :=
  ⟨Or.inl rfl, rfl, nan_compares_unequal binary64 d_nan d_one (Or.inl rfl)⟩

/-- C14. A default-constructed value holds the value-initialised
representation, which is zero: positive zero for a floating-point
representation, `0` for an integer one; it compares equal to a value
constructed from zero (of either sign for floating point). -/
theorem default_construction_is_zero :
    (∀ (fmt : Format),
      (strong_type.default_construct : strong_type (Fp fmt)).get = Fp.fin false 0 ∧
      (strong_type.default_construct : strong_type (Fp fmt)).get.toRat = 0 ∧
      ∀ s : Bool, st_eq.op_eq (strong_type.default_construct : strong_type (Fp fmt))
        (strong_type.construct (Fp.fin s 0)) = true) ∧
    (∀ (w : Nat) (sg : Bool),
      (strong_type.default_construct : strong_type (MInt w sg)).get.val = 0 ∧
      st_eq.op_eq (strong_type.default_construct : strong_type (MInt w sg))
        (strong_type.construct ⟨0⟩) = true) := by
  refine ⟨fun fmt => ⟨rfl, ?_, fun s => ?_⟩, fun w sg => ⟨rfl, ?_⟩⟩
  · show (Fp.fin false 0 : Fp fmt).toRat = 0
    simp [Fp.toRat, Fp.toInt]
  · refine st_test_equality_fin_of_toInt_eq false s 0 0 ?_
    cases s <;> simp [Fp.toInt]
  · exact (op_eq_mint_iff _ _).mpr rfl

/-- C15. The ordering operators equal their reference definitions, for every
representation: `a < b` is raw less-than and not `a == b`; `a > b` is `b < a`;
`a >= b` is not `a < b`; `a <= b` is not `b < a`. -/
theorem ordering_operators_are_reference (ty_t : Type) [Representation ty_t]
    (a b : strong_type ty_t) :
    st_cmp.op_lt a b = spec_lt a b ∧ st_cmp.op_gt a b = spec_gt a b ∧
    st_cmp.op_ge a b = spec_ge a b ∧ st_cmp.op_le a b = spec_le a b ∧
    st_cmp.op_lt a b = (Representation.lt a.get b.get && !(st_eq.op_eq a b)) ∧
    st_cmp.op_gt a b = st_cmp.op_lt b a ∧
    st_cmp.op_ge a b = !(st_cmp.op_lt a b) ∧
    st_cmp.op_le a b = !(st_cmp.op_lt b a) :=
  ⟨rfl, rfl, rfl, rfl, rfl, rfl, rfl, rfl⟩

/-- C16. `operator<` is a strict partial order on finite values: `a < a` is
false, `a < b` and `b < a` never hold together, and `a < b` with `b < c` gives
`a < c`, the endpoints then not comparing equal.  This holds for every
floating-point format and for every integer representation. -/
theorem op_lt_strict_partial_order :
    (∀ (fmt : Format), 1 ≤ fmt.prec → ∀ (s1 s2 s3 : Bool) (m1 m2 m3 : Nat),
      st_cmp.op_lt (⟨Fp.fin s1 m1⟩ : strong_type (Fp fmt)) ⟨Fp.fin s1 m1⟩ = false ∧
      ¬ (st_cmp.op_lt (⟨Fp.fin s1 m1⟩ : strong_type (Fp fmt)) ⟨Fp.fin s2 m2⟩ = true ∧
        st_cmp.op_lt (⟨Fp.fin s2 m2⟩ : strong_type (Fp fmt)) ⟨Fp.fin s1 m1⟩ = true) ∧
      (st_cmp.op_lt (⟨Fp.fin s1 m1⟩ : strong_type (Fp fmt)) ⟨Fp.fin s2 m2⟩ = true →
        st_cmp.op_lt (⟨Fp.fin s2 m2⟩ : strong_type (Fp fmt)) ⟨Fp.fin s3 m3⟩ = true →
        st_cmp.op_lt (⟨Fp.fin s1 m1⟩ : strong_type (Fp fmt)) ⟨Fp.fin s3 m3⟩ = true ∧
        st_eq.op_eq (⟨Fp.fin s1 m1⟩ : strong_type (Fp fmt)) ⟨Fp.fin s3 m3⟩ = false)) ∧
    (∀ (w : Nat) (sg : Bool) (a b c : strong_type (MInt w sg)),
      st_cmp.op_lt a a = false ∧
      ¬ (st_cmp.op_lt a b = true ∧ st_cmp.op_lt b a = true) ∧
      (st_cmp.op_lt a b = true → st_cmp.op_lt b c = true →
        st_cmp.op_lt a c = true ∧ st_eq.op_eq a c = false)) := by
  constructor
  · intro fmt hp s1 s2 s3 m1 m2 m3
    refine ⟨?_, ?_, ?_⟩
    · rw [← Bool.not_eq_true, op_lt_fin_iff]
      rintro ⟨h, _⟩
      omega
    · rw [op_lt_fin_iff, op_lt_fin_iff]
      rintro ⟨⟨h1, _⟩, ⟨h2, _⟩⟩
      omega
    · intro h12 h23
      have h13 := op_lt_fin_trans hp s1 s2 s3 m1 m2 m3 h12 h23
      refine ⟨h13, ?_⟩
      rw [op_lt_eq, Bool.and_eq_true] at h13
      simpa using h13.2
  · intro w sg a b c
    refine ⟨?_, ?_, ?_⟩
    · rw [← Bool.not_eq_true, op_lt_mint_iff]
      omega
    · rw [op_lt_mint_iff, op_lt_mint_iff]
      omega
    · intro h12 h23
      rw [op_lt_mint_iff] at h12 h23
      have h13 : st_cmp.op_lt a c = true := (op_lt_mint_iff a c).mpr (by omega)
      refine ⟨h13, ?_⟩
      rw [op_lt_eq, Bool.and_eq_true] at h13
      simpa using h13.2

/-- C16 at the `double`s 1.0 < 1.0 + 2 * epsilon < 1.0 + 10 * epsilon. -/
theorem op_lt_strict_partial_order_witness :
    1 ≤ binary64.prec ∧
    st_cmp.op_lt d_one d_one_next2 = true ∧
    st_cmp.op_lt d_one_next2
      (⟨Fp.fin false (binary64.oneMag + 10 * binary64.epsMag)⟩ : strong_type double) = true ∧
    (st_cmp.op_lt d_one
      (⟨Fp.fin false (binary64.oneMag + 10 * binary64.epsMag)⟩ : strong_type double) = true ∧
    st_eq.op_eq d_one
      (⟨Fp.fin false (binary64.oneMag + 10 * binary64.epsMag)⟩ : strong_type double) = false) :=
  ⟨(by decide), (by decide!), (by decide!),
    (op_lt_strict_partial_order.1 binary64 (by decide) false false false binary64.oneMag
      (binary64.oneMag + 2 * binary64.epsMag) (binary64.oneMag + 10 * binary64.epsMag)).2.2
      (by decide!) (by decide!)⟩

/-- C17. On finite values `a <= b` and `a >= b` hold together exactly when
`a == b`; equivalently neither `a < b` nor `b < a` holds exactly when `a == b`;
and `<=` is total.  This holds for every floating-point format and every
integer representation. -/
theorem le_and_ge_iff_eq :
    (∀ (fmt : Format) (s1 s2 : Bool) (m1 m2 : Nat),
      ((st_cmp.op_le (⟨Fp.fin s1 m1⟩ : strong_type (Fp fmt)) ⟨Fp.fin s2 m2⟩ = true ∧
          st_cmp.op_ge (⟨Fp.fin s1 m1⟩ : strong_type (Fp fmt)) ⟨Fp.fin s2 m2⟩ = true) ↔
        st_eq.op_eq (⟨Fp.fin s1 m1⟩ : strong_type (Fp fmt)) ⟨Fp.fin s2 m2⟩ = true) ∧
      ((st_cmp.op_lt (⟨Fp.fin s1 m1⟩ : strong_type (Fp fmt)) ⟨Fp.fin s2 m2⟩ = false ∧
          st_cmp.op_lt (⟨Fp.fin s2 m2⟩ : strong_type (Fp fmt)) ⟨Fp.fin s1 m1⟩ = false) ↔
        st_eq.op_eq (⟨Fp.fin s1 m1⟩ : strong_type (Fp fmt)) ⟨Fp.fin s2 m2⟩ = true) ∧
      (st_cmp.op_le (⟨Fp.fin s1 m1⟩ : strong_type (Fp fmt)) ⟨Fp.fin s2 m2⟩ = true ∨
        st_cmp.op_le (⟨Fp.fin s2 m2⟩ : strong_type (Fp fmt)) ⟨Fp.fin s1 m1⟩ = true)) ∧
    (∀ (w : Nat) (sg : Bool) (a b : strong_type (MInt w sg)),
      ((st_cmp.op_le a b = true ∧ st_cmp.op_ge a b = true) ↔ st_eq.op_eq a b = true) ∧
      ((st_cmp.op_lt a b = false ∧ st_cmp.op_lt b a = false) ↔ st_eq.op_eq a b = true) ∧
      (st_cmp.op_le a b = true ∨ st_cmp.op_le b a = true)) := by
  have key : ∀ (ty_t : Type) [Representation ty_t] (a b : strong_type ty_t),
      ((st_cmp.op_le a b = true ∧ st_cmp.op_ge a b = true) ↔ st_eq.op_eq a b = true) →
      ¬ (st_cmp.op_lt a b = true ∧ st_cmp.op_lt b a = true) →
      ((st_cmp.op_le a b = true ∧ st_cmp.op_ge a b = true) ↔ st_eq.op_eq a b = true) ∧
      ((st_cmp.op_lt a b = false ∧ st_cmp.op_lt b a = false) ↔ st_eq.op_eq a b = true) ∧
      (st_cmp.op_le a b = true ∨ st_cmp.op_le b a = true) := by
    intro ty_t _ a b h hasym
    refine ⟨h, ?_, ?_⟩
    · rw [← h]
      unfold st_cmp.op_le st_cmp.op_ge
      cases st_cmp.op_lt a b <;> cases st_cmp.op_lt b a <;> simp
    · unfold st_cmp.op_le
      cases hab : st_cmp.op_lt a b <;> cases hba : st_cmp.op_lt b a <;> simp
      exact hasym ⟨hab, hba⟩
  constructor
  · intro fmt s1 s2 m1 m2
    refine key _ _ _ (op_le_ge_fin_iff s1 s2 m1 m2) ?_
    rw [op_lt_fin_iff, op_lt_fin_iff]
    rintro ⟨⟨h1, _⟩, ⟨h2, _⟩⟩
    omega
  · intro w sg a b
    refine key _ _ _ (op_le_ge_mint_iff a b) ?_
    rw [op_lt_mint_iff, op_lt_mint_iff]
    omega

/-- C18. Equality under the scaled-epsilon rule is not transitive: for the
`double`s 1, 1 + eps and 1 + 2 * eps the first two and the last two compare
equal and the outer two do not. -/
theorem scaled_epsilon_equality_not_transitive :
    (Fp.valid d_one.get ∧ Fp.valid d_one_next.get ∧ Fp.valid d_one_next2.get) ∧
    (st_eq.op_eq d_one d_one_next = true ∧ st_eq.op_eq d_one_next d_one_next2 = true ∧
      st_eq.op_eq d_one d_one_next2 = false) ∧
    ¬ (∀ a b c : strong_type double,
      st_eq.op_eq a b = true → st_eq.op_eq b c = true → st_eq.op_eq a c = true) := by
  have h1 : st_eq.op_eq d_one d_one_next = true := by decide!
  have h2 : st_eq.op_eq d_one_next d_one_next2 = true := by decide!
  have h3 : st_eq.op_eq d_one d_one_next2 = false := by decide!
  refine ⟨by decide!, ⟨h1, h2, h3⟩, fun h => ?_⟩
  have := h d_one d_one_next d_one_next2 h1 h2
  rw [h3] at this
  cases this

/-- C19. Zero is equal only to zero: for a representable finite `x`, a zero
compares equal to `x` exactly when `x` is a zero, because for a non-zero `x`
the scaled epsilon `eps * max(|0|, |x|)` is a finite value smaller than `|x|`. -/
theorem zero_equals_only_zero (fmt : Format) (hp : 3 ≤ fmt.prec) (he : 1 ≤ fmt.emax)
    (s0 s : Bool) (m : Nat) (hm : Fp.representable fmt m) :
    (st_eq.op_eq (⟨Fp.fin s0 0⟩ : strong_type (Fp fmt)) ⟨Fp.fin s m⟩ = true ↔ m = 0) ∧
    (0 < m → ∃ t, Fp.mul (Fp.epsilon fmt)
        (Fp.fmax (Fp.fabs (Fp.fin s0 0 : Fp fmt)) (Fp.fabs (Fp.fin s m))) = Fp.fin false t ∧
      t < m) := by
  refine ⟨op_eq_zero_fin_iff hp he s0 s m hm, fun hpos => ?_⟩
  have hT := fmt.two_mul_scaledEps_le hp he 0 m
  rw [Nat.max_eq_right (Nat.zero_le m)] at hT
  refine ⟨fmt.scaledEps 0 m, ?_, by omega⟩
  rw [Fp.fmax_fabs_fin, Fp.mul_epsilon_fin]
  have hmax := hm.2
  unfold Fp.pack
  rw [if_pos]
  · rfl
  · show fmt.scaledEps 0 m ≤ fmt.maxMag
    omega

/-- C19 at the smallest positive `double`: it is not equal to zero. -/
theorem zero_equals_only_zero_witness :
    3 ≤ binary64.prec ∧ 1 ≤ binary64.emax ∧ Fp.representable binary64 1 ∧
    ((st_eq.op_eq d_zero d_min = true ↔ (1 : Nat) = 0) ∧
      (0 < 1 → ∃ t, Fp.mul (Fp.epsilon binary64)
          (Fp.fmax (Fp.fabs (Fp.fin false 0 : Fp binary64)) (Fp.fabs (Fp.fin false 1)))
          = Fp.fin false t ∧ t < 1)) :=
  ⟨(by decide), (by decide), (by decide!),
    zero_equals_only_zero binary64 (by decide) (by decide) false false 1 (by decide!)⟩

/-- C20. For an integer representation the equality conjunct of `operator<` is
redundant: `a < b` is the built-in `<` of the stored values, and `<=`, `>`, `>=`
are the built-in `<=`, `>`, `>=` of the stored values. -/
theorem exact_ordering_is_raw (w : Nat) (sg : Bool) (a b : strong_type (MInt w sg)) :
    is_floating_point_v (MInt w sg) = false ∧
    st_cmp.op_lt a b = MInt.lt a.get b.get ∧
    st_cmp.op_le a b = MInt.le a.get b.get ∧
    st_cmp.op_gt a b = MInt.gt a.get b.get ∧
    st_cmp.op_ge a b = MInt.ge a.get b.get ∧
    (st_cmp.op_lt a b = true ↔ a.get.val < b.get.val) := by
  have hlt : ∀ x y : strong_type (MInt w sg), st_cmp.op_lt x y = decide (x.get.val < y.get.val) := by
    intro x y
    have h := op_lt_mint_iff x y
    by_cases hc : x.get.val < y.get.val
    · rw [h.mpr hc]; simp [hc]
    · have : st_cmp.op_lt x y ≠ true := fun t => hc (h.mp t)
      simp [hc, this]
  refine ⟨rfl, hlt a b, ?_, ?_, ?_, op_lt_mint_iff a b⟩
  · show (!(st_cmp.op_lt b a)) = decide (a.get.val ≤ b.get.val)
    rw [hlt b a]
    by_cases hc : b.get.val < a.get.val
    · have : ¬ a.get.val ≤ b.get.val := by omega
      simp [hc, this]
    · have : a.get.val ≤ b.get.val := by omega
      simp [hc, this]
  · show st_cmp.op_lt b a = decide (b.get.val < a.get.val)
    exact hlt b a
  · show (!(st_cmp.op_lt a b)) = decide (b.get.val ≤ a.get.val)
    rw [hlt a b]
    by_cases hc : a.get.val < b.get.val
    · have : ¬ b.get.val ≤ a.get.val := by omega
      simp [hc, this]
    · have : b.get.val ≤ a.get.val := by omega
      simp [hc, this]

end roam
